import Mathlib

/-!
Verification development for the realtime matchmaking / chat relay core.

The TypeScript source keeps its state in JavaScript `Map`s and `Set`s.  We
embed those as association lists (`List (String × String)` for the
`matches` map, `List QueuedUser` for the queue keyed by `socketId`,
`List (String × List String)` for the tier buckets), preserving the
insertion-order iteration semantics of JS `Map`/`Set`.  `Date.now()` and
`Math.random()` are passed in explicitly as oracle arguments.  JS
truthiness on strings (`if (x)` for a possibly empty string) is modelled
by explicit emptiness tests.
-/

namespace Vele

/-- JS-map lookup: first entry with the given key, if any. -/
def mapGet (m : List (String × String)) (k : String) : Option String :=
  (m.find? (fun pr => pr.1 = k)).map (·.2)

/-- JS-map `set`: overwrite the entry in place if the key is present,
otherwise append (JS `Map` keeps insertion order). -/
def mapSet (m : List (String × String)) (k v : String) : List (String × String) :=
  if m.any (fun pr => pr.1 = k) then
    m.map (fun pr => if pr.1 = k then (k, v) else pr)
  else
    m ++ [(k, v)]

/-- JS-map `delete`: drop every entry with the given key. -/
def mapDelete (m : List (String × String)) (k : String) : List (String × String) :=
  m.filter (fun pr => pr.1 ≠ k)

/-- JS-set `add`: append if not already present (JS `Set` keeps insertion order). -/
def setAdd (s : List String) (x : String) : List String :=
  if x ∈ s then s else s ++ [x]

/-- JS string truthiness for an optional string: `undefined` and `''` are falsy. -/
def truthyStr : Option String → Bool
  | none => false
  | some s => s ≠ ""

/-- The `tier || 'free'` defaulting used throughout the source (`''` is falsy). -/
def jsTier (t : String) : String :=
  if t = "" then "free" else t

/-- One waiting user, mirroring the source's `QueuedUser` record.  The
`preferences` object (always present after `addUser`, which spreads the raw
preferences and forces a tier) is flattened into the three `pref*` fields.
Timestamps are milliseconds as integers. -/
structure QueuedUser where
  socketId : String
  userId : String
  prefGender : Option String
  prefRegion : Option String
  prefTier : String
  timestamp : Int
  waitTime : Int
  blockedUsers : List String
  searchAttempts : Nat
deriving DecidableEq, Repr

/-- The raw `preferences` argument of `addUser` (every field optional). -/
structure AddPrefs where
  gender : Option String
  region : Option String
  tier : Option String
  blockedUserIds : Option (List String)
deriving DecidableEq, Repr

/-- A scored candidate, mirroring the source's `MatchCandidate`. -/
structure MatchCandidate where
  user : QueuedUser
  score : ℚ
  tierMatch : Bool
  waitTimeBonus : Int
deriving DecidableEq, Repr

/-- The mutable state of the `MatchmakingQueue` class: the queue map
(`socketId -> QueuedUser`, kept as an insertion-ordered list), the
`matches` map (`socketId -> matched socketId`) and the tier buckets
(`tier -> Set of socketIds`). -/
structure QueueState where
  queue : List QueuedUser
  matchesMap : List (String × String)
  buckets : List (String × List String)
deriving DecidableEq, Repr

/-- Lookup in the queue map by socket id. -/
def queueGet (q : List QueuedUser) (sid : String) : Option QueuedUser :=
  q.find? (fun u => u.socketId = sid)

/-- The constructor-initialised state: empty queue, empty matches, the
three fixed tier buckets. -/
def initState : QueueState :=
  { queue := []
    matchesMap := []
    buckets := [("free", []), ("premium", []), ("pro", [])] }

/-- Remove a socket id from the bucket of the given tier, if that bucket exists. -/
def bucketsDelete (bs : List (String × List String)) (tier sid : String) :
    List (String × List String) :=
  bs.map (fun pr => if pr.1 = tier then (pr.1, pr.2.filter (fun x => x ≠ sid)) else pr)

/-- Add a socket id to the bucket of the given tier, if that bucket exists
(`tierBuckets.get(tier)` is `undefined` for unknown tiers and the add is skipped). -/
def bucketsAdd (bs : List (String × List String)) (tier sid : String) :
    List (String × List String) :=
  bs.map (fun pr => if pr.1 = tier then (pr.1, setAdd pr.2 sid) else pr)

/-- Lookup of a tier bucket. -/
def bucketGet (bs : List (String × List String)) (tier : String) : Option (List String) :=
  (bs.find? (fun pr => pr.1 = tier)).map (·.2)

/-- Stable insertion step for the descending-score sort: the new element
(which comes earlier in the original list) is placed before the first
element whose score it ties or beats. -/
def insertDesc (a : MatchCandidate) : List MatchCandidate → List MatchCandidate
  | [] => [a]
  | b :: bs => if b.score ≤ a.score then a :: b :: bs else b :: insertDesc a bs

/-- Stable sort by descending score, the semantics of the source's
`candidates.sort((a, b) => b.score - a.score)` (V8's sort is stable). -/
def sortByDesc : List MatchCandidate → List MatchCandidate
  | [] => []
  | a :: as => insertDesc a (sortByDesc as)

/-- The weighted-selection loop of `findMatch`: subtract scores from the
scaled random draw until it drops to zero or below. -/
def weightedLoop : ℚ → List MatchCandidate → Option QueuedUser
  | _, [] => none
  | r, c :: cs => if r - c.score ≤ 0 then some c.user else weightedLoop (r - c.score) cs

namespace MatchmakingQueue

/-- First half of `MatchmakingQueue.removeUser`: if the user is queued,
delete it from the queue, the socket-to-user map and its tier bucket
(`preferences?.tier || 'free'`). -/
def removeUserQueueStage (st : QueueState) (sid : String) : QueueState :=
  match queueGet st.queue sid with
  | some user =>
    { st with
      queue := st.queue.filter (fun u => u.socketId ≠ sid)
      buckets := bucketsDelete st.buckets (jsTier user.prefTier) sid }
  | none => st

/-- Second half of `MatchmakingQueue.removeUser` (the `!keepMatch` path):
when `matches.get(socketId)` is truthy (present and non-empty), delete both
halves of the match. -/
def removeUserMatchStage (st : QueueState) (sid : String) : QueueState :=
  match mapGet st.matchesMap sid with
  | some m =>
    if m = "" then st
    else { st with matchesMap := mapDelete (mapDelete st.matchesMap sid) m }
  | none => st

/-- `MatchmakingQueue.removeUser(socketId, keepMatch = false)`.  Removes the
user from the queue and its tier bucket when present; when `keepMatch` is
false and `matches.get(socketId)` is truthy (a non-empty string), deletes
both halves of the match. -/
def removeUser (st : QueueState) (sid : String) (keepMatch : Bool) : QueueState :=
  let st1 := removeUserQueueStage st sid
  if keepMatch then st1 else removeUserMatchStage st1 sid

/-- `MatchmakingQueue.addUser(socketId, userId, preferences?)`.  First calls
`removeUser(socketId)`, then inserts a fresh `QueuedUser` (tier defaulted
with `|| 'free'`, blocked user ids taken from `preferences.blockedUserIds`
or empty) into the queue, the socket-to-user map and the tier bucket.
`now` stands for `Date.now()`. -/
def addUser (st : QueueState) (sid uid : String) (prefs : Option AddPrefs) (now : Int) :
    QueueState :=
  let st1 := removeUser st sid false
  let tier := match prefs with
    | some p => match p.tier with
      | some t => jsTier t
      | none => "free"
    | none => "free"
  let blocked : List String := match prefs with
    | some p => (p.blockedUserIds).getD []
    | none => []
  let user : QueuedUser :=
    { socketId := sid
      userId := uid
      prefGender := prefs.bind (·.gender)
      prefRegion := prefs.bind (·.region)
      prefTier := tier
      timestamp := now
      waitTime := 0
      blockedUsers := blocked
      searchAttempts := 0 }
  { st1 with
    queue := st1.queue ++ [user]
    buckets := bucketsAdd st1.buckets tier sid }

/-- `MatchmakingQueue.createMatch(socketId1, socketId2)`: set both halves of
the match first, then remove both users from the queue with `keepMatch=true`. -/
def createMatch (st : QueueState) (s1 s2 : String) : QueueState :=
  let st1 := { st with matchesMap := mapSet (mapSet st.matchesMap s1 s2) s2 s1 }
  removeUser (removeUser st1 s1 true) s2 true

/-- `MatchmakingQueue.clearMatch(socketId1, socketId2)`: delete both keys
from the matches map (whatever they point at). -/
def clearMatch (st : QueueState) (s1 s2 : String) : QueueState :=
  { st with matchesMap := mapDelete (mapDelete st.matchesMap s1) s2 }

/-- `MatchmakingQueue.isMatched(socketId)`. -/
def isMatched (st : QueueState) (sid : String) : Bool :=
  (mapGet st.matchesMap sid).isSome

/-- `MatchmakingQueue.getMatch(socketId)`. -/
def getMatch (st : QueueState) (sid : String) : Option String :=
  mapGet st.matchesMap sid

/-- `MatchmakingQueue.getQueueSize()`. -/
def getQueueSize (st : QueueState) : Nat :=
  st.queue.length

/-- `MatchmakingQueue.getUserWaitTime(socketId)`: `Date.now() - timestamp`
for a queued user, `0` otherwise. -/
def getUserWaitTime (st : QueueState) (sid : String) (now : Int) : Int :=
  match queueGet st.queue sid with
  | none => 0
  | some u => now - u.timestamp

/-- `MatchmakingQueue.calculateMatchScore(user, candidate, tierMatch)` with
`Date.now()` and the `Math.random() * 10` jitter passed explicitly. -/
def calculateMatchScore (now : Int) (user candidate : QueuedUser) (tierMatch : Bool)
    (jitter : ℚ) : ℚ :=
  let base : ℚ := if tierMatch then 100 else 50
  let userWaitTime : ℚ := ((now - user.timestamp : Int) : ℚ)
  let candidateWaitTime : ℚ := ((now - candidate.timestamp : Int) : ℚ)
  let avgWaitTime := (userWaitTime + candidateWaitTime) / 2
  let waitTimeBonus := min 50 (avgWaitTime / 600)
  let attemptsPenalty := min 20 ((candidate.searchAttempts : ℚ) * 2)
  base + waitTimeBonus - attemptsPenalty + jitter

/-- `MatchmakingQueue.areCompatible(user, candidate)`.  Reads the `matches`
map for the already-matched check; all other checks are on the two records.
Region and gender filters follow the source's truthiness tests exactly. -/
def areCompatible (matchesMap : List (String × String)) (user candidate : QueuedUser) : Bool :=
  if candidate.socketId = user.socketId then false
  else if (mapGet matchesMap candidate.socketId).isSome then false
  else if user.blockedUsers.contains candidate.userId
       || candidate.blockedUsers.contains user.userId then false
  else
    let hasRegionFilter := truthyStr user.prefRegion && user.prefRegion != some "any"
    let regionOk :=
      if hasRegionFilter then
        match candidate.prefRegion with
        | none => false
        | some mr => if mr = "" || mr = "any" || user.prefRegion != some mr then false else true
      else true
    if !regionOk then false
    else
      let hasGenderFilter := truthyStr user.prefGender && user.prefGender != some "any"
      if hasGenderFilter then
        match candidate.prefGender with
        | none => false
        | some mg => if mg = "" || mg = "any" || user.prefGender != some mg then false else true
      else true

/-- The per-candidate body of the phase-1/phase-2 loops of `findMatch`:
skip self (phase 1 only), look the candidate up in the queue, test
compatibility and score it (`tierMatch` fixed per phase). -/
def candOf (st : QueueState) (user : QueuedUser) (now : Int) (jitter : String → ℚ)
    (tierMatch : Bool) (skipSelf : Bool) (cid : String) : Option MatchCandidate :=
  if skipSelf = true ∧ cid = user.socketId then none
  else
    match queueGet st.queue cid with
    | none => none
    | some cand =>
      if areCompatible st.matchesMap user cand then
        some { user := cand
               score := calculateMatchScore now user cand tierMatch (jitter cid)
               tierMatch := tierMatch
               waitTimeBonus := cand.waitTime }
      else none

/-- The per-candidate body of the relaxed phase-3 loop of `findMatch`:
skip self, skip already matched, keep only the mutual block check, and
score with `tierMatch` recomputed from the raw tier fields. -/
def relaxedCandOf (st : QueueState) (user : QueuedUser) (now : Int) (jitter : String → ℚ)
    (userTier : String) (cand : QueuedUser) : Option MatchCandidate :=
  if cand.socketId = user.socketId then none
  else if (mapGet st.matchesMap cand.socketId).isSome then none
  else if user.blockedUsers.contains cand.userId
       || cand.blockedUsers.contains user.userId then none
  else
    let tm := cand.prefTier = userTier
    some { user := cand
           score := calculateMatchScore now user cand tm (jitter cand.socketId)
           tierMatch := tm
           waitTimeBonus := cand.waitTime }

/-- Pushing a passed candidate onto the accumulator, the body of the
source's `candidates.push(...)` pattern inside each collection loop. -/
def pushCand (acc : List MatchCandidate) (c? : Option MatchCandidate) :
    List MatchCandidate :=
  match c? with
  | some c => acc ++ [c]
  | none => acc

/-- The candidate-collection and selection body of
`MatchmakingQueue.findMatch`, operating on the already-updated user record
and state.  The three phases push candidates onto an accumulator exactly as
the source's loops do; selection sorts by descending score, takes the top 5,
and walks the weighted-random loop with fallback to the best candidate.
`rnd` stands for the `Math.random()` draw of the selection (in `[0,1)`),
`jitter` for the per-candidate `Math.random() * 10` of the scoring. -/
def findMatchSearch (st : QueueState) (user : QueuedUser) (now : Int)
    (jitter : String → ℚ) (rnd : ℚ) : Option QueuedUser :=
  let userTier := jsTier user.prefTier
  let cands1 : List MatchCandidate :=
    match bucketGet st.buckets userTier with
    | none => []
    | some ids =>
      ids.foldl (fun acc cid =>
        pushCand acc (candOf st user now jitter true true cid)) []
  let shouldTryCrossTier := cands1.isEmpty || decide (user.waitTime > 10000)
  let cands2 : List MatchCandidate :=
    if shouldTryCrossTier then
      st.buckets.foldl (fun acc pr =>
        if pr.1 = userTier then acc
        else
          pr.2.foldl (fun acc2 cid =>
            pushCand acc2 (candOf st user now jitter false false cid)) acc) cands1
    else cands1
  let cands3 : List MatchCandidate :=
    if cands2.isEmpty then
      st.queue.foldl (fun acc cand =>
        pushCand acc (relaxedCandOf st user now jitter userTier cand)) cands2
    else cands2
  if cands3.isEmpty then none
  else
    match sortByDesc cands3 with
    | [] => none
    | t :: ts =>
      let topCandidates := (t :: ts).take 5
      let totalScore := (topCandidates.map MatchCandidate.score).sum
      match weightedLoop (rnd * totalScore) topCandidates with
      | some u => some u
      | none => some t.user

/-- `MatchmakingQueue.findMatch(socketId)`: `null` when already matched or
not queued; otherwise the queue entry's `waitTime` is refreshed and
`searchAttempts` incremented in place, and the search body runs on the
updated state.  Returns the updated state with the result. -/
def findMatch (st : QueueState) (sid : String) (now : Int) (jitter : String → ℚ)
    (rnd : ℚ) : QueueState × Option QueuedUser :=
  if (mapGet st.matchesMap sid).isSome then (st, none)
  else
    match queueGet st.queue sid with
    | none => (st, none)
    | some user0 =>
      let user := { user0 with
                      waitTime := now - user0.timestamp
                      searchAttempts := user0.searchAttempts + 1 }
      let st' := { st with queue := st.queue.map (fun q => if q.socketId = sid then user else q) }
      (st', findMatchSearch st' user now jitter rnd)

end MatchmakingQueue

/-- One invocation of a public mutating operation of the matchmaking queue,
with the time and randomness oracles its execution consumed. -/
inductive QOp where
  | add (sid uid : String) (prefs : Option AddPrefs) (now : Int)
  | remove (sid : String) (keepMatch : Bool)
  | find (sid : String) (now : Int) (jitter : String → ℚ) (rnd : ℚ)
  | create (s1 s2 : String)
  | clear (s1 s2 : String)

/-- Apply one operation to the queue state. -/
def applyOp (st : QueueState) : QOp → QueueState
  | .add sid uid prefs now => MatchmakingQueue.addUser st sid uid prefs now
  | .remove sid keepMatch => MatchmakingQueue.removeUser st sid keepMatch
  | .find sid now jitter rnd => (MatchmakingQueue.findMatch st sid now jitter rnd).1
  | .create s1 s2 => MatchmakingQueue.createMatch st s1 s2
  | .clear s1 s2 => MatchmakingQueue.clearMatch st s1 s2

/-- Run a sequence of operations from a given state. -/
def runOpsFrom (st : QueueState) (ops : List QOp) : QueueState :=
  ops.foldl applyOp st

/-- Run a sequence of operations from the empty initial state. -/
def runOps (ops : List QOp) : QueueState :=
  runOpsFrom initState ops

/-- Outbound socket events emitted by the handlers under study.  Payload
fields mirror the source's object literals; fields that a given emission
omits are `Option`s. -/
inductive SEvent where
  | errorEv (message : String)
  | messageBlocked (reason : String)
  | receiveMessage (message : String) (timestamp : Int) (senderId : String)
  | matchEnded (reason : String) (autoRequeue : Bool) (fromSocketId : Option String)
      (disconnected : Option Bool)
  | matchCancelled
  | matchFound (matchSocketId : String) (matchUserId : String) (waitTime : Int)
  | matchmakingStopped
  | skipSuccess (autoRequeue : Bool)
deriving DecidableEq, Repr

/-- An emission: target socket id and event. -/
abbrev Emission := String × SEvent

/-- The `send-message` handler of `handleChat`.  With no active match it
emits an `error` event back to the sender; with a profane message (the
`bad-words` filter is the oracle `profane`) it emits `message-blocked`;
otherwise it echoes `receive-message` to the sender with one `Date.now()`
read (`t1`) and delivers `receive-message` to the partner with a second,
separate `Date.now()` read (`t2`) — the direct-socket and room fallback
branches emit the same payload.  The handler never touches the queue state,
which is returned unchanged. -/
def sendMessage (st : QueueState) (sid : String) (msg : String) (profane : Bool)
    (t1 t2 : Int) : QueueState × List Emission :=
  match MatchmakingQueue.getMatch st sid with
  | none => (st, [(sid, .errorEv "No active match")])
  | some matchSocketId =>
    if profane then (st, [(sid, .messageBlocked "Profanity detected")])
    else
      (st, [(sid, .receiveMessage msg t1 sid),
            (matchSocketId, .receiveMessage msg t2 sid)])

/-- The `cancel-match` handler registered in `setupSocketIO`: remove from
the queue and acknowledge with `match-cancelled`. -/
def cancelMatchHandler (st : QueueState) (sid : String) : QueueState × List Emission :=
  (MatchmakingQueue.removeUser st sid false, [(sid, .matchCancelled)])

/-- The result of the synchronous part of the `skip` handler: the new state,
the emissions, and the auto-requeue task scheduled with `setTimeout(…, 200)`
(carrying the skipping session's id, its `userId` and raw preferences). -/
structure SkipResult where
  state : QueueState
  emissions : List Emission
  requeueTask : Option (String × String × Option AddPrefs)
deriving Repr

/-- The synchronous part of the `skip` handler of `setupSocketIO`.  With a
current match: notify the partner (`autoRequeue` hard-coded `true`) and the
skipper (`autoRequeue` from the payload, defaulted `false`), clear the
match, force-remove both users if either still appears matched, and
schedule the requeue task when the payload's `autoRequeue` and `userId` are
truthy.  With no match: remove from the queue and emit a bare
`match-ended`. -/
def skipHandler (st : QueueState) (sid : String) (dataUserId : Option String)
    (dataPrefs : Option AddPrefs) (dataAutoRequeue : Option Bool) : SkipResult :=
  match MatchmakingQueue.getMatch st sid with
  | some matchSocketId =>
    let e1 : Emission :=
      (matchSocketId, .matchEnded "skipped" true (some sid) (some true))
    let e2 : Emission :=
      (sid, .matchEnded "skipped" (dataAutoRequeue.getD false) (some sid) (some true))
    let st1 := MatchmakingQueue.clearMatch st sid matchSocketId
    let st2 :=
      if MatchmakingQueue.isMatched st1 sid || MatchmakingQueue.isMatched st1 matchSocketId then
        MatchmakingQueue.removeUser
          (MatchmakingQueue.removeUser st1 sid false) matchSocketId false
      else st1
    let task :=
      if dataAutoRequeue.getD false && truthyStr dataUserId then
        dataUserId.map (fun uid => (sid, uid, dataPrefs))
      else none
    { state := st2, emissions := [e1, e2], requeueTask := task }
  | none =>
    { state := MatchmakingQueue.removeUser st sid false
      emissions := [(sid, .matchEnded "skipped" false none none)]
      requeueTask := none }

/-- The delayed auto-requeue callback of the `skip` handler (the body of its
`setTimeout`).  If the session is somehow still matched it is force-removed;
if it is then unmatched, the session is re-added to the queue —
`blockedFetch = some ids` models a successful `Block.find` (ids merged into
the preferences), `none` a failed fetch (raw preferences reused) — a new
search driver is started for it (`handleMatchmaking`), and `skip-success`
is acknowledged.  Returns the state, emissions, and the sessions for which
a search driver was started. -/
def skipRequeueStep (st : QueueState) (sid uid : String) (dataPrefs : Option AddPrefs)
    (blockedFetch : Option (List String)) (now : Int) :
    QueueState × List Emission × List String :=
  let st1 :=
    if (MatchmakingQueue.getMatch st sid).isSome then
      MatchmakingQueue.removeUser st sid false
    else st
  if (MatchmakingQueue.getMatch st1 sid).isSome then (st1, [], [])
  else if sid = "" ∨ uid = "" then (st1, [], [])
  else
    match blockedFetch with
    | some blockedIds =>
      let prefs : AddPrefs :=
        { gender := dataPrefs.bind (·.gender)
          region := dataPrefs.bind (·.region)
          tier := dataPrefs.bind (·.tier)
          blockedUserIds := some blockedIds }
      (MatchmakingQueue.addUser st1 sid uid (some prefs) now,
       [(sid, .skipSuccess true)], [sid])
    | none =>
      (MatchmakingQueue.addUser st1 sid uid dataPrefs now,
       [(sid, .skipSuccess true)], [sid])

/-- The whole `skip` interaction: the synchronous handler followed by the
scheduled auto-requeue callback (if one was scheduled), with no other
events interleaved.  Returns the final state, all emissions in order, and
the sessions for which a new search driver was started. -/
def skipWithRequeue (st : QueueState) (sid : String) (dataUserId : Option String)
    (dataPrefs : Option AddPrefs) (dataAutoRequeue : Option Bool)
    (blockedFetch : Option (List String)) (now : Int) :
    QueueState × List Emission × List String :=
  let r := skipHandler st sid dataUserId dataPrefs dataAutoRequeue
  match r.requeueTask with
  | none => (r.state, r.emissions, [])
  | some (tsid, tuid, tprefs) =>
    let (st', evs, drivers) := skipRequeueStep r.state tsid tuid tprefs blockedFetch now
    (st', r.emissions ++ evs, drivers)

/-- The composed `disconnect` handling for a session.  The listener of
`setupSocketIO` runs first and calls `removeUser(socket.id)` (clearing any
match); if the session had started matchmaking, the listener registered by
`handleMatchmaking` runs next and removes the user again only when it is
not matched.  Neither listener emits anything to anyone. -/
def disconnectHandlers (st : QueueState) (sid : String) (didFindMatch : Bool) :
    QueueState × List Emission :=
  let st1 := MatchmakingQueue.removeUser st sid false
  let st2 :=
    if didFindMatch then
      if MatchmakingQueue.isMatched st1 sid then st1
      else MatchmakingQueue.removeUser st1 sid false
    else st1
  (st2, [])

/-- The match-found branch of `checkForMatch` in `handleMatchmaking`:
`createMatch` first, then `getUserWaitTime` (on the already-emptied queue),
then `match-found` to the searcher carrying the partner's socket id, user
id and wait time, `match-found` to the partner carrying the searcher's
socket id twice (the user id field is deliberately the socket id, with the
comment `Anonymous - don't reveal real userId`) — the connected-socket and
room-fallback branches emit the same payload — and finally
`matchmaking-stopped` to the partner. -/
def checkForMatchFound (st : QueueState) (sid : String) (mu : QueuedUser) (now : Int) :
    QueueState × List Emission :=
  let st1 := MatchmakingQueue.createMatch st sid mu.socketId
  let userWaitTime := MatchmakingQueue.getUserWaitTime st1 sid now
  (st1,
   [(sid, .matchFound mu.socketId mu.userId mu.waitTime),
    (mu.socketId, .matchFound sid sid userWaitTime),
    (mu.socketId, .matchmakingStopped)])

/-- The `match-found` payloads delivered to a given session within an
emission list. -/
def matchFoundPayloadsTo (evs : List Emission) (who : String) :
    List (String × String × Int) :=
  evs.filterMap (fun e =>
    match e with
    | (target, .matchFound msid muid w) =>
      if target = who then some (msid, muid, w) else none
    | _ => none)

/-! Claim-side definitions: predicates and characterisations written from
the specification's words, to be compared with the source-derived
definitions above. -/

/-- A preference field that actively filters, in the spec's sense: set
(present and, per JS truthiness, non-empty) and not the wildcard `any`. -/
def prefActive (o : Option String) : Prop :=
  ∃ s, o = some s ∧ s ≠ "" ∧ s ≠ "any"

/-- The spec's pairing-symmetry invariant: if `PartnerOf(A) = B` then
`PartnerOf(B) = A`. -/
def SymmetricMatches (m : List (String × String)) : Prop :=
  ∀ a b : String, mapGet m a = some b → mapGet m b = some a

/-- The call-site guard of each operation, as invoked by the socket
handlers: `createMatch` is only ever called on two distinct sessions
neither of which is matched (the searcher passed `findMatch`'s
already-matched check, the candidate passed `areCompatible`), and
`clearMatch(s1, s2)` is only ever called with `s2 = getMatch(s1)`. -/
def opGuard (st : QueueState) : QOp → Prop
  | .create s1 s2 =>
    s1 ≠ s2 ∧ MatchmakingQueue.getMatch st s1 = none ∧
      MatchmakingQueue.getMatch st s2 = none
  | .clear s1 s2 => MatchmakingQueue.getMatch st s1 = some s2
  | _ => True

/-- A sequence of operations each of which satisfies its call-site guard in
the state it runs in. -/
def guardedFrom (st : QueueState) : List QOp → Prop
  | [] => True
  | op :: rest => opGuard st op ∧ guardedFrom (applyOp st op) rest

/-- Session-id arguments are non-empty strings, as socket ids always are
(`setupSocketIO` additionally refuses a falsy `socket.id` before
`addUser`); only `createMatch` needs this, since an empty string stored as
a match value would defeat the truthy `matches.get(socketId)` test in
`removeUser`. -/
def opIdsOk : QOp → Prop
  | .create s1 s2 => s1 ≠ "" ∧ s2 ≠ ""
  | _ => True

/-- The queue/pairing exclusivity invariant of the spec: queue keys are
distinct, no queued session is a key of the matches map, and (auxiliary)
match values are non-empty. -/
def QueueInv (st : QueueState) : Prop :=
  (st.queue.map QueuedUser.socketId).Nodup ∧
  (∀ u ∈ st.queue, mapGet st.matchesMap u.socketId = none) ∧
  (∀ pr ∈ st.matchesMap, pr.2 ≠ "")

/-- Phase 1 of the spec's selection strategy: the compatible, scored
entries of the caller's own tier bucket (`tierMatch = true`). -/
def phaseOneCandidates (st : QueueState) (user : QueuedUser) (now : Int)
    (jitter : String → ℚ) : List MatchCandidate :=
  match bucketGet st.buckets (jsTier user.prefTier) with
  | none => []
  | some ids => ids.filterMap (MatchmakingQueue.candOf st user now jitter true true)

/-- Phase 2 of the spec's selection strategy: the compatible, scored
entries of the other tier buckets (`tierMatch = false`). -/
def crossTierCandidates (st : QueueState) (user : QueuedUser) (now : Int)
    (jitter : String → ℚ) : List MatchCandidate :=
  (st.buckets.filter (fun pr => pr.1 ≠ jsTier user.prefTier)).flatMap
    (fun pr => pr.2.filterMap (MatchmakingQueue.candOf st user now jitter false false))

/-- Phase 3 of the spec's selection strategy: the whole queue with only the
self, already-matched and mutual-block checks. -/
def relaxedCandidates (st : QueueState) (user : QueuedUser) (now : Int)
    (jitter : String → ℚ) : List MatchCandidate :=
  st.queue.filterMap (MatchmakingQueue.relaxedCandOf st user now jitter (jsTier user.prefTier))

/-- The candidate pool of the spec's phased strategy: phase 1; phase 2 is
entered iff phase 1 yielded no candidates or the caller has waited more
than 10 000 ms; phase 3 only if the pool is still empty. -/
def candidatePool (st : QueueState) (user : QueuedUser) (now : Int)
    (jitter : String → ℚ) : List MatchCandidate :=
  let c1 := phaseOneCandidates st user now jitter
  let c12 :=
    if c1 = [] ∨ user.waitTime > 10000 then c1 ++ crossTierCandidates st user now jitter
    else c1
  if c12 = [] then relaxedCandidates st user now jitter else c12

/-- The in-place update `findMatch` performs on the caller's queue entry:
refresh `waitTime` and increment `searchAttempts`. -/
def bumpUser (user0 : QueuedUser) (now : Int) : QueuedUser :=
  { user0 with
      waitTime := now - user0.timestamp
      searchAttempts := user0.searchAttempts + 1 }

/-- Replacing the entry keyed `sid` of the queue with the given record. -/
def bumpQueue (st : QueueState) (sid : String) (user : QueuedUser) : QueueState :=
  { st with queue := st.queue.map (fun q => if q.socketId = sid then user else q) }

/-- Cumulative score sums of a candidate list, starting from `acc`. -/
def cumScores : List MatchCandidate → ℚ → List ℚ
  | [], _ => []
  | c :: cs, acc => (acc + c.score) :: cumScores cs (acc + c.score)

/-- The spec's weighted random selection over an (already sorted) candidate
list: take the top 5 by score, scale one uniform draw by the score sum, and
pick the first candidate whose cumulative score reaches the draw, falling
back to the best candidate. -/
def weightedSelect (rnd : ℚ) : List MatchCandidate → Option QueuedUser
  | [] => none
  | t :: ts =>
    let top := (t :: ts).take 5
    let total := (top.map MatchCandidate.score).sum
    match (top.zip (cumScores top 0)).find? (fun pr => rnd * total ≤ pr.2) with
    | some pr => some pr.1.user
    | none => some t.user

/-- Decidability of the per-operation id condition. -/
instance decidableOpIdsOk : DecidablePred opIdsOk := fun op => by
  unfold opIdsOk; cases op <;> infer_instance

/-- Decidability of the per-operation call-site guard. -/
instance decidableOpGuard (st : QueueState) (op : QOp) : Decidable (opGuard st op) := by
  unfold opGuard; cases op <;> infer_instance

/-- Decidability of guardedness of a whole trace. -/
def guardedFromDecidable : (st : QueueState) → (ops : List QOp) →
    Decidable (guardedFrom st ops)
  | _, [] => .isTrue trivial
  | st, op :: rest =>
    haveI : Decidable (guardedFrom (applyOp st op) rest) := guardedFromDecidable _ rest
    inferInstanceAs (Decidable (_ ∧ _))

instance (st : QueueState) (ops : List QOp) : Decidable (guardedFrom st ops) :=
  guardedFromDecidable st ops

/-! Generic lemmas about the JS-map embedding. -/

theorem mapGet_cons (pr : String × String) (m : List (String × String)) (k : String) :
    mapGet (pr :: m) k = if pr.1 = k then some pr.2 else mapGet m k := by
  by_cases h : pr.1 = k <;> simp [mapGet, List.find?_cons, h]

theorem mapDelete_cons (pr : String × String) (m : List (String × String)) (k : String) :
    mapDelete (pr :: m) k =
      if pr.1 = k then mapDelete m k else pr :: mapDelete m k := by
  by_cases h : pr.1 = k <;> simp [mapDelete, List.filter_cons, h]

theorem mapGet_mapDelete (m : List (String × String)) (k x : String) :
    mapGet (mapDelete m k) x = if x = k then none else mapGet m x := by
  induction m with
  | nil =>
    by_cases hx : x = k
    · rw [if_pos hx]; rfl
    · rw [if_neg hx]; rfl
  | cons pr m ih =>
    rw [mapDelete_cons]
    by_cases hpk : pr.1 = k
    · rw [if_pos hpk, ih, mapGet_cons]
      by_cases hx : x = k
      · rw [if_pos hx, if_pos hx]
      · have hpx : ¬ (pr.1 = x) := fun h => hx ((hpk.symm.trans h).symm)
        rw [if_neg hx, if_neg hx, if_neg hpx]
    · rw [if_neg hpk, mapGet_cons, mapGet_cons, ih]
      by_cases hpx : pr.1 = x
      · have hx : ¬ (x = k) := fun h => hpk (hpx.trans h)
        rw [if_pos hpx, if_neg hx, if_pos hpx]
      · rw [if_neg hpx]
        by_cases hx : x = k
        · rw [if_pos hx, if_pos hx]
        · rw [if_neg hx, if_neg hx, if_neg hpx]

theorem mapGet_mapDelete_self (m : List (String × String)) (k : String) :
    mapGet (mapDelete m k) k = none := by
  simp [mapGet_mapDelete]

theorem mapGet_mapDelete_ne (m : List (String × String)) {k x : String} (h : x ≠ k) :
    mapGet (mapDelete m k) x = mapGet m x := by
  simp [mapGet_mapDelete, h]

theorem mapDelete_subset (m : List (String × String)) (k : String) :
    ∀ pr ∈ mapDelete m k, pr ∈ m := fun _ h => (List.mem_filter.mp h).1

theorem mapGet_overwrite_ne (m : List (String × String)) (k v : String) {x : String}
    (hx : x ≠ k) :
    mapGet (m.map (fun pr => if pr.1 = k then (k, v) else pr)) x = mapGet m x := by
  induction m with
  | nil => rfl
  | cons pr m ih =>
    by_cases hpk : pr.1 = k
    · rw [List.map_cons, if_pos hpk, mapGet_cons, mapGet_cons]
      have h1 : ¬ ((k, v).1 = x) := fun h => hx (show x = k from h.symm)
      have h2 : ¬ (pr.1 = x) := fun h => hx (show x = k from (hpk.symm.trans h).symm)
      rw [if_neg h1, if_neg h2, ih]
    · rw [List.map_cons, if_neg hpk, mapGet_cons, mapGet_cons]
      by_cases hpx : pr.1 = x
      · rw [if_pos hpx, if_pos hpx]
      · rw [if_neg hpx, if_neg hpx, ih]

theorem mapGet_overwrite_self (m : List (String × String)) (k v : String)
    (hany : m.any (fun pr => pr.1 = k) = true) :
    mapGet (m.map (fun pr => if pr.1 = k then (k, v) else pr)) k = some v := by
  induction m with
  | nil => simp at hany
  | cons pr m ih =>
    by_cases hpk : pr.1 = k
    · rw [List.map_cons, if_pos hpk, mapGet_cons, if_pos rfl]
    · rw [List.map_cons, if_neg hpk, mapGet_cons, if_neg hpk]
      simp only [List.any_cons, Bool.or_eq_true, decide_eq_true_eq] at hany
      exact ih (by simpa using hany.resolve_left hpk)

theorem mapGet_append_single (m : List (String × String)) (k v x : String)
    (hnok : ∀ pr ∈ m, ¬ (pr.1 = k)) :
    mapGet (m ++ [(k, v)]) x = if x = k then some v else mapGet m x := by
  induction m with
  | nil =>
    rw [List.nil_append, mapGet_cons]
    by_cases hx : x = k
    · rw [if_pos (show (k, v).1 = x from hx.symm), if_pos hx]
    · rw [if_neg (show ¬ ((k, v).1 = x) from fun h => hx h.symm), if_neg hx]
  | cons pr m ih =>
    rw [List.cons_append, mapGet_cons, mapGet_cons]
    by_cases hpx : pr.1 = x
    · have hxk : ¬ (x = k) := fun h => hnok pr (List.mem_cons_self pr m) (hpx.trans h)
      rw [if_pos hpx, if_pos hpx, if_neg hxk]
    · rw [if_neg hpx, if_neg hpx,
        ih (fun q hq => hnok q (List.mem_cons_of_mem pr hq))]

theorem mapGet_mapSet (m : List (String × String)) (k v x : String) :
    mapGet (mapSet m k v) x = if x = k then some v else mapGet m x := by
  unfold mapSet
  by_cases hany : m.any (fun pr => pr.1 = k) = true
  · rw [if_pos hany]
    by_cases hx : x = k
    · rw [if_pos hx, hx, mapGet_overwrite_self m k v hany]
    · rw [if_neg hx, mapGet_overwrite_ne m k v hx]
  · rw [if_neg hany]
    exact mapGet_append_single m k v x
      (fun pr hpr hk => hany (List.any_eq_true.mpr ⟨pr, hpr, decide_eq_true hk⟩))

theorem mapSet_value_mem (m : List (String × String)) (k v : String) :
    ∀ pr ∈ mapSet m k v, pr = (k, v) ∨ pr ∈ m := by
  intro pr hpr
  unfold mapSet at hpr
  by_cases hany : m.any (fun q => q.1 = k) = true
  · rw [if_pos hany] at hpr
    obtain ⟨q, hq, hqe⟩ := List.mem_map.mp hpr
    by_cases hqk : q.1 = k
    · rw [if_pos hqk] at hqe; exact Or.inl hqe.symm
    · rw [if_neg hqk] at hqe; exact Or.inr (hqe ▸ hq)
  · rw [if_neg hany] at hpr
    rcases List.mem_append.mp hpr with h | h
    · exact Or.inr h
    · exact Or.inl (List.mem_singleton.mp h)

/-! Helper lemmas about the queue operations. -/

theorem removeUserQueueStage_matchesMap (st : QueueState) (sid : String) :
    (MatchmakingQueue.removeUserQueueStage st sid).matchesMap = st.matchesMap := by
  unfold MatchmakingQueue.removeUserQueueStage
  cases queueGet st.queue sid <;> rfl

theorem removeUserMatchStage_queue (st : QueueState) (sid : String) :
    (MatchmakingQueue.removeUserMatchStage st sid).queue = st.queue := by
  unfold MatchmakingQueue.removeUserMatchStage
  cases mapGet st.matchesMap sid with
  | none => rfl
  | some m => by_cases h : m = "" <;> simp [h]

theorem removeUserMatchStage_buckets (st : QueueState) (sid : String) :
    (MatchmakingQueue.removeUserMatchStage st sid).buckets = st.buckets := by
  unfold MatchmakingQueue.removeUserMatchStage
  cases mapGet st.matchesMap sid with
  | none => rfl
  | some m => by_cases h : m = "" <;> simp [h]

theorem removeUser_queue (st : QueueState) (sid : String) (b : Bool) :
    (MatchmakingQueue.removeUser st sid b).queue =
      (MatchmakingQueue.removeUserQueueStage st sid).queue := by
  unfold MatchmakingQueue.removeUser
  cases b <;> simp [removeUserMatchStage_queue]

theorem removeUser_matchesMap_keep (st : QueueState) (sid : String) :
    (MatchmakingQueue.removeUser st sid true).matchesMap = st.matchesMap := by
  unfold MatchmakingQueue.removeUser
  simp [removeUserQueueStage_matchesMap]

theorem removeUser_matchesMap_of_none (st : QueueState) {sid : String} (b : Bool)
    (h : mapGet st.matchesMap sid = none) :
    (MatchmakingQueue.removeUser st sid b).matchesMap = st.matchesMap := by
  unfold MatchmakingQueue.removeUser MatchmakingQueue.removeUserMatchStage
  cases b
  · simp only [Bool.false_eq_true, if_false, removeUserQueueStage_matchesMap st sid, h]
  · simp [removeUserQueueStage_matchesMap st sid]

theorem removeUser_matchesMap_clear (st : QueueState) {sid p : String}
    (h : MatchmakingQueue.getMatch st sid = some p) (hp : p ≠ "") :
    (MatchmakingQueue.removeUser st sid false).matchesMap =
      mapDelete (mapDelete st.matchesMap sid) p := by
  unfold MatchmakingQueue.getMatch at h
  unfold MatchmakingQueue.removeUser MatchmakingQueue.removeUserMatchStage
  simp only [Bool.false_eq_true, if_false, removeUserQueueStage_matchesMap st sid, h, hp]

theorem queueGet_eq_none_iff (q : List QueuedUser) (sid : String) :
    queueGet q sid = none ↔ ∀ u ∈ q, u.socketId ≠ sid := by
  unfold queueGet
  rw [List.find?_eq_none]
  constructor
  · intro h u hu he
    exact absurd (decide_eq_true he) (by simpa using h u hu)
  · intro h u hu
    simpa using h u hu

theorem queueGet_removeUser_none (st : QueueState) (sid : String) (b : Bool) {x : String}
    (h : queueGet st.queue x = none) :
    queueGet (MatchmakingQueue.removeUser st sid b).queue x = none := by
  rw [removeUser_queue]
  unfold MatchmakingQueue.removeUserQueueStage
  cases hq : queueGet st.queue sid with
  | none => exact h
  | some u =>
    exact (queueGet_eq_none_iff _ x).mpr
      (fun v hv => (queueGet_eq_none_iff _ x).mp h v (List.mem_filter.mp hv).1)

theorem queueGet_removeUser_self (st : QueueState) (sid : String) (b : Bool) :
    queueGet (MatchmakingQueue.removeUser st sid b).queue sid = none := by
  rw [removeUser_queue]
  unfold MatchmakingQueue.removeUserQueueStage
  cases hq : queueGet st.queue sid with
  | none => exact hq
  | some u =>
    exact (queueGet_eq_none_iff _ sid).mpr
      (fun v hv => by simpa using (List.mem_filter.mp hv).2)

theorem queueGet_append_single (q : List QueuedUser) (u : QueuedUser) (x : String) :
    queueGet (q ++ [u]) x =
      match queueGet q x with
      | some v => some v
      | none => if u.socketId = x then some u else none := by
  induction q with
  | nil =>
    cases hux : decide (u.socketId = x) <;>
      simp_all [queueGet, List.find?]
  | cons v q ih =>
    by_cases hv : v.socketId = x
    · simp [queueGet, List.find?, hv]
    · simp only [queueGet, List.cons_append, List.find?] at ih ⊢
      rw [show (decide (v.socketId = x)) = false from decide_eq_false hv]
      exact ih

theorem queueGet_addUser_self (st : QueueState) (sid uid : String)
    (prefs : Option AddPrefs) (now : Int) :
    (queueGet (MatchmakingQueue.addUser st sid uid prefs now).queue sid).map
        (fun u => (u.socketId, u.userId)) = some (sid, uid) := by
  unfold MatchmakingQueue.addUser
  rw [queueGet_append_single, queueGet_removeUser_self]
  simp

theorem queueGet_addUser_isSome (st : QueueState) (sid uid : String)
    (prefs : Option AddPrefs) (now : Int) :
    (queueGet (MatchmakingQueue.addUser st sid uid prefs now).queue sid).isSome
      = true := by
  unfold MatchmakingQueue.addUser
  rw [queueGet_append_single, queueGet_removeUser_self]
  simp

theorem queueGet_addUser_other (st : QueueState) (sid uid : String)
    (prefs : Option AddPrefs) (now : Int) {x : String} (hx : x ≠ sid)
    (h : queueGet st.queue x = none) :
    queueGet (MatchmakingQueue.addUser st sid uid prefs now).queue x = none := by
  unfold MatchmakingQueue.addUser
  rw [queueGet_append_single, queueGet_removeUser_none st sid false h]
  simp only []
  have hns : ¬ (sid = x) := fun hh => hx hh.symm
  simp [hns]

theorem clearMatch_queue (st : QueueState) (s1 s2 : String) :
    (MatchmakingQueue.clearMatch st s1 s2).queue = st.queue := rfl

theorem getMatch_clearMatch_fst (st : QueueState) (s1 s2 : String) :
    MatchmakingQueue.getMatch (MatchmakingQueue.clearMatch st s1 s2) s1 = none := by
  unfold MatchmakingQueue.getMatch MatchmakingQueue.clearMatch
  rw [mapGet_mapDelete]
  by_cases h : s1 = s2
  · rw [if_pos h]
  · rw [if_neg h, mapGet_mapDelete_self]

theorem getMatch_clearMatch_snd (st : QueueState) (s1 s2 : String) :
    MatchmakingQueue.getMatch (MatchmakingQueue.clearMatch st s1 s2) s2 = none := by
  unfold MatchmakingQueue.getMatch MatchmakingQueue.clearMatch
  exact mapGet_mapDelete_self _ s2

/-! Claim theorems. -/

/-- C10: for a session with no current match, a `send-message` emits an
event named `error` with payload message `No active match` back to the
sender only, relays nothing to anyone else, and leaves the queue and
pairing state unchanged. -/
theorem sendMessage_no_match_error (st : QueueState) (sid msg : String) (profane : Bool)
    (t1 t2 : Int) (h : MatchmakingQueue.getMatch st sid = none) :
    sendMessage st sid msg profane t1 t2 =
      (st, [(sid, SEvent.errorEv "No active match")]) := by
  unfold sendMessage
  rw [h]

/-- Witness for C10 at a concrete unmatched session. -/
theorem sendMessage_no_match_error_witness :
    MatchmakingQueue.getMatch initState "s1" = none ∧
      sendMessage initState "s1" "hi" true 3 4 =
        (initState, [("s1", SEvent.errorEv "No active match")]) :=
  ⟨by decide, sendMessage_no_match_error initState "s1" "hi" true 3 4 (by decide)⟩

/-- C6 counterexample: the source reads `Date.now()` separately for the echo
and for the partner delivery, so with a clock that advances between the two
reads the two `receive-message` copies carry different timestamps; the
claim that the two copies always carry the same timestamp is false. -/
theorem sendMessage_timestamp_cex :
    (sendMessage (runOps [QOp.create "a" "b"]) "a" "hi" false 1000 1001).2 =
      [("a", SEvent.receiveMessage "hi" 1000 "a"),
       ("b", SEvent.receiveMessage "hi" 1001 "a")] ∧
    ¬ ∃ t : Int,
      (sendMessage (runOps [QOp.create "a" "b"]) "a" "hi" false 1000 1001).2 =
        [("a", SEvent.receiveMessage "hi" t "a"),
         ("b", SEvent.receiveMessage "hi" t "a")] := by
  constructor
  · decide
  · rintro ⟨t, ht⟩
    have h0 : (sendMessage (runOps [QOp.create "a" "b"]) "a" "hi" false 1000 1001).2 =
        [("a", SEvent.receiveMessage "hi" 1000 "a"),
         ("b", SEvent.receiveMessage "hi" 1001 "a")] := by decide
    rw [h0] at ht
    simp only [List.cons.injEq, Prod.mk.injEq, SEvent.receiveMessage.injEq] at ht
    omega

/-- C6 (amended): on an allowed `send-message` from a matched sender, the
core delivers `receive-message` to the sender and then the partner; both
copies carry the same message and the same `senderId` (the sender's socket
id), while each copy's timestamp comes from its own `Date.now()` read, so
the timestamps agree exactly when the two reads coincide. -/
theorem sendMessage_allowed_delivery (st : QueueState) (sid p msg : String) (t1 t2 : Int)
    (h : MatchmakingQueue.getMatch st sid = some p) :
    sendMessage st sid msg false t1 t2 =
      (st, [(sid, SEvent.receiveMessage msg t1 sid),
            (p, SEvent.receiveMessage msg t2 sid)]) := by
  unfold sendMessage
  rw [h]
  rfl

/-- Witness for the amended C6 with a concrete pairing. -/
theorem sendMessage_allowed_delivery_witness :
    MatchmakingQueue.getMatch (runOps [QOp.create "a" "b"]) "a" = some "b" ∧
      sendMessage (runOps [QOp.create "a" "b"]) "a" "yo" false 7 7 =
        (runOps [QOp.create "a" "b"],
         [("a", SEvent.receiveMessage "yo" 7 "a"), ("b", SEvent.receiveMessage "yo" 7 "a")]) :=
  ⟨by decide, sendMessage_allowed_delivery (runOps [QOp.create "a" "b"]) "a" "b" "yo" 7 7
    (by decide)⟩

/-- C4 counterexample: for a session with no match, the `skip` handler and
the `cancel-match` handler produce different outbound events (`match-ended`
with reason `skipped` versus `match-cancelled`), so the handlers are not
equivalent as claimed. -/
theorem skip_vs_cancel_emissions_cex :
    MatchmakingQueue.getMatch initState "s1" = none ∧
    (skipHandler initState "s1" none none none).emissions ≠
      (cancelMatchHandler initState "s1").2 := by
  decide

/-- C4 (amended): for a session with no current match, `skip` with
`autoRequeue` absent performs exactly the same state change as
`cancel-match` (removal from the queue) and schedules nothing, but the
outbound events differ: `skip` emits `match-ended` with reason `skipped`
and `autoRequeue:false`, `cancel-match` emits `match-cancelled`. -/
theorem skip_no_match_state_eq_cancel (st : QueueState) (sid : String)
    (dUserId : Option String) (dPrefs : Option AddPrefs) (dAuto : Option Bool)
    (h : MatchmakingQueue.getMatch st sid = none) :
    (skipHandler st sid dUserId dPrefs dAuto).state = (cancelMatchHandler st sid).1 ∧
    (skipHandler st sid dUserId dPrefs dAuto).emissions =
      [(sid, SEvent.matchEnded "skipped" false none none)] ∧
    (skipHandler st sid dUserId dPrefs dAuto).requeueTask = none ∧
    (cancelMatchHandler st sid).2 = [(sid, SEvent.matchCancelled)] := by
  unfold skipHandler cancelMatchHandler
  rw [h]
  exact ⟨rfl, rfl, rfl, rfl⟩

/-- Witness for the amended C4 at a concrete unmatched session. -/
theorem skip_no_match_state_eq_cancel_witness :
    MatchmakingQueue.getMatch initState "s9" = none ∧
      ((skipHandler initState "s9" none none none).state =
        (cancelMatchHandler initState "s9").1 ∧
       (skipHandler initState "s9" none none none).emissions =
        [("s9", SEvent.matchEnded "skipped" false none none)] ∧
       (skipHandler initState "s9" none none none).requeueTask = none ∧
       (cancelMatchHandler initState "s9").2 = [("s9", SEvent.matchCancelled)]) :=
  ⟨by decide, skip_no_match_state_eq_cancel initState "s9" none none none (by decide)⟩

/-- C3 counterexample: with `a` paired to `b`, running the complete
disconnect handling for `a` emits no event at all — in particular no
`match-ended` reaches the partner `b`, contrary to the claim. -/
theorem disconnect_no_event_cex :
    MatchmakingQueue.getMatch (runOps [QOp.create "a" "b"]) "a" = some "b" ∧
    (disconnectHandlers (runOps [QOp.create "a" "b"]) "a" true).2 = [] := by
  decide

/-- C3 (amended): when a session `sid` paired with `p` disconnects, the
disconnect handling does remove the pairing record (both halves) before it
completes, but it emits nothing — no `match-ended` is sent to the partner,
who learns of the disconnect only through the transport layer. -/
theorem disconnect_clears_pairing_silently (st : QueueState) (sid p : String)
    (dfm : Bool) (h : MatchmakingQueue.getMatch st sid = some p) (hp : p ≠ "") :
    MatchmakingQueue.getMatch (disconnectHandlers st sid dfm).1 sid = none ∧
    MatchmakingQueue.getMatch (disconnectHandlers st sid dfm).1 p = none ∧
    (disconnectHandlers st sid dfm).2 = [] := by
  have h1 := removeUser_matchesMap_clear st h hp
  have hsid : MatchmakingQueue.getMatch (MatchmakingQueue.removeUser st sid false) sid
      = none := by
    unfold MatchmakingQueue.getMatch
    rw [h1, mapGet_mapDelete]
    by_cases hsp : sid = p
    · rw [if_pos hsp]
    · rw [if_neg hsp, mapGet_mapDelete_self]
  have hpn : MatchmakingQueue.getMatch (MatchmakingQueue.removeUser st sid false) p
      = none := by
    unfold MatchmakingQueue.getMatch
    rw [h1, mapGet_mapDelete_self]
  have hsid' : mapGet (MatchmakingQueue.removeUser st sid false).matchesMap sid = none := by
    unfold MatchmakingQueue.getMatch at hsid
    exact hsid
  have hfinal : (disconnectHandlers st sid dfm).1.matchesMap =
      (MatchmakingQueue.removeUser st sid false).matchesMap := by
    unfold disconnectHandlers
    cases dfm
    · rfl
    · have him : MatchmakingQueue.isMatched (MatchmakingQueue.removeUser st sid false) sid
          = false := by
        unfold MatchmakingQueue.isMatched
        rw [hsid']
        rfl
      simp only [him, Bool.false_eq_true, if_false, if_true]
      exact removeUser_matchesMap_of_none (MatchmakingQueue.removeUser st sid false)
        false hsid'
  refine ⟨?_, ?_, rfl⟩
  · unfold MatchmakingQueue.getMatch at hsid ⊢
    rw [hfinal]; exact hsid
  · unfold MatchmakingQueue.getMatch at hpn ⊢
    rw [hfinal]; exact hpn

/-- Witness for the amended C3 with a concrete pairing. -/
theorem disconnect_clears_pairing_silently_witness :
    MatchmakingQueue.getMatch (runOps [QOp.create "x" "y"]) "x" = some "y" ∧
      (MatchmakingQueue.getMatch
          (disconnectHandlers (runOps [QOp.create "x" "y"]) "x" true).1 "x" = none ∧
       MatchmakingQueue.getMatch
          (disconnectHandlers (runOps [QOp.create "x" "y"]) "x" true).1 "y" = none ∧
       (disconnectHandlers (runOps [QOp.create "x" "y"]) "x" true).2 = []) :=
  ⟨by decide,
    (disconnect_clears_pairing_silently (runOps [QOp.create "x" "y"]) "x" "y" true
      (by decide) (by decide)).imp id id⟩

/-- C7 counterexample: the searching session `s1` has user id `u1`, yet the
single `match-found` delivered to the partner `s2` carries `s1` — the
searcher's socket id — in its user-id field, not `u1`. -/
theorem matchFound_userId_cex :
    (queueGet (runOps [QOp.add "s1" "u1" none 0, QOp.add "s2" "u2" none 0]).queue
        "s1").map QueuedUser.userId = some "u1" ∧
    matchFoundPayloadsTo
      (checkForMatchFound (runOps [QOp.add "s1" "u1" none 0, QOp.add "s2" "u2" none 0])
        "s1"
        { socketId := "s2", userId := "u2", prefGender := none, prefRegion := none,
          prefTier := "free", timestamp := 0, waitTime := 5, blockedUsers := [],
          searchAttempts := 1 } 5).2 "s2" = [("s1", "s1", 0)] ∧
    ("s1" : String) ≠ "u1" := by
  decide

/-- C7 (amended): whenever the match-found branch fires, each of the two
sessions receives exactly one `match-found` whose socket-id field is the
other session's socket id; the searcher's copy carries the partner's user
id, but the partner's copy carries the searcher's socket id (deliberately
anonymised) in the user-id field, together with the searcher's post-removal
wait time. -/
theorem matchFound_payload_fields (st : QueueState) (sid : String) (mu : QueuedUser)
    (now : Int) (h : mu.socketId ≠ sid) :
    matchFoundPayloadsTo (checkForMatchFound st sid mu now).2 sid =
      [(mu.socketId, mu.userId, mu.waitTime)] ∧
    matchFoundPayloadsTo (checkForMatchFound st sid mu now).2 mu.socketId =
      [(sid, sid,
        MatchmakingQueue.getUserWaitTime
          (MatchmakingQueue.createMatch st sid mu.socketId) sid now)] := by
  unfold checkForMatchFound matchFoundPayloadsTo
  constructor
  · simp [List.filterMap, h]
  · have hns : ¬ (sid = mu.socketId) := fun hh => h hh.symm
    simp [List.filterMap, hns]

/-- The preference-filter check of `areCompatible`, characterised: it
passes iff an active filter (set, non-empty, not `any`) forces the
candidate's preference to equal the caller's. -/
theorem filterCheck_iff (up cp : Option String) :
    ((if (truthyStr up && (up != some "any")) = true then
        (match cp with
         | none => false
         | some mr => if (mr = "" || mr = "any" || up != some mr) = true then false else true)
      else true) = true) ↔ (prefActive up → cp = up) := by
  cases up with
  | none =>
    simp [truthyStr, prefActive]
  | some s =>
    by_cases hs0 : s = ""
    · subst hs0
      simp [truthyStr, prefActive]
    · by_cases hsa : s = "any"
      · subst hsa
        simp [truthyStr, prefActive]
      · have hfil : (truthyStr (some s) && (some s != some "any")) = true := by
          simp [truthyStr, hs0, hsa]
        rw [if_pos hfil]
        have hact : prefActive (some s) := ⟨s, rfl, hs0, hsa⟩
        cases cp with
        | none =>
          simp [hact]
        | some mr =>
          by_cases hmr : mr = s
          · subst hmr
            simp [hs0, hsa, hact]
          · have hms : ¬ (s = mr) := fun h => hmr h.symm
            simp [hmr, hms, hact]

/-- C8: `areCompatible(U, C)` returns true iff C is a different socket, C is
not already matched, neither user's blocked set (user ids) contains the
other's user id, and for each of region and gender an active preference of
the caller forces equality of the candidate's preference; the candidate's
own preferences impose no filter. -/
theorem areCompatible_iff (m : List (String × String)) (u c : QueuedUser) :
    MatchmakingQueue.areCompatible m u c = true ↔
      (c.socketId ≠ u.socketId ∧ mapGet m c.socketId = none ∧
       c.userId ∉ u.blockedUsers ∧ u.userId ∉ c.blockedUsers ∧
       (prefActive u.prefRegion → c.prefRegion = u.prefRegion) ∧
       (prefActive u.prefGender → c.prefGender = u.prefGender)) := by
  unfold MatchmakingQueue.areCompatible
  by_cases h1 : c.socketId = u.socketId
  · simp [h1]
  · rw [if_neg h1]
    cases hm : mapGet m c.socketId with
    | some v => simp [hm, h1]
    | none =>
      simp only [Option.isSome_none, Bool.false_eq_true, if_false]
      by_cases hb1 : c.userId ∈ u.blockedUsers
      · simp [hb1]
      · by_cases hb2 : u.userId ∈ c.blockedUsers
        · simp [hb2]
        · have hb : (u.blockedUsers.contains c.userId
              || c.blockedUsers.contains u.userId) = false := by
            simp [hb1, hb2]
          rw [hb]
          simp only [Bool.false_eq_true, if_false]
          have hbool : ∀ r g : Bool,
              ((if (!r) = true then false else g) = true ↔ (r = true ∧ g = true)) := by
            decide
          rw [hbool]
          rw [filterCheck_iff u.prefRegion c.prefRegion,
            filterCheck_iff u.prefGender c.prefGender]
          simp [h1, hb1, hb2]

/-! Invariant machinery for C1 and C2. -/

theorem mapGet_eq_some_mem {m : List (String × String)} {k v : String}
    (h : mapGet m k = some v) : (k, v) ∈ m := by
  unfold mapGet at h
  cases hf : m.find? (fun pr => pr.1 = k) with
  | none => rw [hf] at h; simp at h
  | some pr =>
    rw [hf] at h
    have hm := List.mem_of_find?_eq_some hf
    have hp := List.find?_some hf
    simp at h hp
    have : (k, v) = pr := by
      cases pr
      simp_all
    rw [this]
    exact hm

theorem mem_removeUser_sub (st : QueueState) (sid : String) (b : Bool) :
    ∀ u ∈ (MatchmakingQueue.removeUser st sid b).queue, u ∈ st.queue := by
  rw [removeUser_queue]
  unfold MatchmakingQueue.removeUserQueueStage
  cases hq : queueGet st.queue sid
  · exact fun u hu => hu
  · exact fun u hu => (List.mem_filter.mp hu).1

theorem mem_removeUser_ne (st : QueueState) (sid : String) (b : Bool) :
    ∀ u ∈ (MatchmakingQueue.removeUser st sid b).queue, u.socketId ≠ sid :=
  (queueGet_eq_none_iff _ sid).mp (queueGet_removeUser_self st sid b)

theorem nodup_removeUser (st : QueueState) (sid : String) (b : Bool)
    (h : (st.queue.map QueuedUser.socketId).Nodup) :
    ((MatchmakingQueue.removeUser st sid b).queue.map QueuedUser.socketId).Nodup := by
  rw [removeUser_queue]
  unfold MatchmakingQueue.removeUserQueueStage
  cases hq : queueGet st.queue sid
  · exact h
  · exact h.sublist ((List.filter_sublist _).map _)

theorem removeUserMatchStage_matchesMap_cases (st : QueueState) (sid : String) :
    (MatchmakingQueue.removeUserMatchStage st sid).matchesMap = st.matchesMap ∨
    ∃ v, mapGet st.matchesMap sid = some v ∧
      (MatchmakingQueue.removeUserMatchStage st sid).matchesMap =
        mapDelete (mapDelete st.matchesMap sid) v := by
  cases hm : mapGet st.matchesMap sid with
  | none =>
    unfold MatchmakingQueue.removeUserMatchStage
    rw [hm]
    exact Or.inl rfl
  | some v =>
    have hred : (MatchmakingQueue.removeUserMatchStage st sid).matchesMap =
        if v = "" then st.matchesMap
        else mapDelete (mapDelete st.matchesMap sid) v := by
      unfold MatchmakingQueue.removeUserMatchStage
      rw [hm]
      show (if v = "" then st
        else { st with matchesMap := mapDelete (mapDelete st.matchesMap sid) v }).matchesMap
          = _
      by_cases hv : v = ""
      · rw [if_pos hv, if_pos hv]
      · rw [if_neg hv, if_neg hv]
    by_cases hv : v = ""
    · exact Or.inl (by rw [hred, if_pos hv])
    · exact Or.inr ⟨v, rfl, by rw [hred, if_neg hv]⟩

theorem removeUser_matchesMap_cases (st : QueueState) (sid : String) (b : Bool) :
    (MatchmakingQueue.removeUser st sid b).matchesMap = st.matchesMap ∨
    ∃ v, mapGet st.matchesMap sid = some v ∧
      (MatchmakingQueue.removeUser st sid b).matchesMap =
        mapDelete (mapDelete st.matchesMap sid) v := by
  unfold MatchmakingQueue.removeUser
  cases b
  · have hcase := removeUserMatchStage_matchesMap_cases
      (MatchmakingQueue.removeUserQueueStage st sid) sid
    rw [removeUserQueueStage_matchesMap] at hcase
    simpa using hcase
  · simp only [if_true]
    exact Or.inl (removeUserQueueStage_matchesMap st sid)

theorem mapGet_removeUser_none_mono (st : QueueState) (sid : String) (b : Bool)
    {x : String} (h : mapGet st.matchesMap x = none) :
    mapGet (MatchmakingQueue.removeUser st sid b).matchesMap x = none := by
  rcases removeUser_matchesMap_cases st sid b with hc | ⟨v, _, hc⟩ <;> rw [hc]
  · exact h
  · rw [mapGet_mapDelete]
    by_cases e1 : x = v
    · rw [if_pos e1]
    · rw [if_neg e1, mapGet_mapDelete]
      by_cases e2 : x = sid
      · rw [if_pos e2]
      · rw [if_neg e2]; exact h

theorem removeUser_values_sub (st : QueueState) (sid : String) (b : Bool) :
    ∀ pr ∈ (MatchmakingQueue.removeUser st sid b).matchesMap, pr ∈ st.matchesMap := by
  intro pr hpr
  rcases removeUser_matchesMap_cases st sid b with hc | ⟨v, _, hc⟩ <;> rw [hc] at hpr
  · exact hpr
  · exact mapDelete_subset _ _ _ (mapDelete_subset _ _ _ hpr)

theorem mapGet_removeUser_clear_self (st : QueueState) (sid : String)
    (h3 : ∀ pr ∈ st.matchesMap, pr.2 ≠ "") :
    mapGet (MatchmakingQueue.removeUser st sid false).matchesMap sid = none := by
  cases hm : mapGet st.matchesMap sid with
  | none => rw [removeUser_matchesMap_of_none st false hm]; exact hm
  | some v =>
    have hv : v ≠ "" := h3 (sid, v) (mapGet_eq_some_mem hm)
    rw [removeUser_matchesMap_clear st hm hv, mapGet_mapDelete]
    by_cases e : sid = v
    · rw [if_pos e]
    · rw [if_neg e, mapGet_mapDelete_self]

theorem queueInv_removeUser (st : QueueState) (sid : String) (b : Bool)
    (h : QueueInv st) : QueueInv (MatchmakingQueue.removeUser st sid b) := by
  obtain ⟨h1, h2, h3⟩ := h
  refine ⟨nodup_removeUser st sid b h1, ?_, ?_⟩
  · intro u hu
    exact mapGet_removeUser_none_mono st sid b (h2 u (mem_removeUser_sub st sid b u hu))
  · intro pr hpr
    exact h3 pr (removeUser_values_sub st sid b pr hpr)

theorem addUser_queue_socketIds (st : QueueState) (sid uid : String)
    (prefs : Option AddPrefs) (now : Int) :
    (MatchmakingQueue.addUser st sid uid prefs now).queue.map QueuedUser.socketId =
      ((MatchmakingQueue.removeUser st sid false).queue.map QueuedUser.socketId)
        ++ [sid] := by
  unfold MatchmakingQueue.addUser
  rw [List.map_append]
  rfl

theorem addUser_queue_mem (st : QueueState) (sid uid : String)
    (prefs : Option AddPrefs) (now : Int) :
    ∀ u ∈ (MatchmakingQueue.addUser st sid uid prefs now).queue,
      u ∈ (MatchmakingQueue.removeUser st sid false).queue ∨ u.socketId = sid := by
  unfold MatchmakingQueue.addUser
  intro u hu
  rcases List.mem_append.mp hu with h | h
  · exact Or.inl h
  · right
    rw [List.mem_singleton.mp h]

theorem addUser_matchesMap (st : QueueState) (sid uid : String)
    (prefs : Option AddPrefs) (now : Int) :
    (MatchmakingQueue.addUser st sid uid prefs now).matchesMap =
      (MatchmakingQueue.removeUser st sid false).matchesMap := rfl

theorem queueInv_addUser (st : QueueState) (sid uid : String)
    (prefs : Option AddPrefs) (now : Int) (h : QueueInv st) :
    QueueInv (MatchmakingQueue.addUser st sid uid prefs now) := by
  have h' := queueInv_removeUser st sid false h
  obtain ⟨h1, h2, h3⟩ := h'
  refine ⟨?_, ?_, ?_⟩
  · rw [addUser_queue_socketIds]
    rw [List.nodup_append]
    refine ⟨h1, List.nodup_singleton sid, ?_⟩
    intro x hx hx'
    rw [List.mem_singleton.mp hx'] at hx
    obtain ⟨u, hu, he⟩ := List.mem_map.mp hx
    exact mem_removeUser_ne st sid false u hu he
  · intro u hu
    rw [addUser_matchesMap]
    rcases addUser_queue_mem st sid uid prefs now u hu with hm | hm
    · exact h2 u hm
    · rw [hm]
      exact mapGet_removeUser_clear_self st sid h.2.2
  · intro pr hpr
    rw [addUser_matchesMap] at hpr
    exact h3 pr hpr

theorem createMatch_matchesMap (st : QueueState) (s1 s2 : String) :
    (MatchmakingQueue.createMatch st s1 s2).matchesMap =
      mapSet (mapSet st.matchesMap s1 s2) s2 s1 := by
  unfold MatchmakingQueue.createMatch
  rw [removeUser_matchesMap_keep, removeUser_matchesMap_keep]

theorem createMatch_queue_mem (st : QueueState) (s1 s2 : String) :
    ∀ u ∈ (MatchmakingQueue.createMatch st s1 s2).queue,
      u ∈ st.queue ∧ u.socketId ≠ s1 ∧ u.socketId ≠ s2 := by
  unfold MatchmakingQueue.createMatch
  intro u hu
  have hu2 := mem_removeUser_ne _ s2 true u hu
  have hu1m := mem_removeUser_sub _ s2 true u hu
  have hu1 := mem_removeUser_ne _ s1 true u hu1m
  have hu0 := mem_removeUser_sub _ s1 true u hu1m
  exact ⟨hu0, hu1, hu2⟩

theorem queueInv_createMatch (st : QueueState) (s1 s2 : String) (h : QueueInv st)
    (hs1 : s1 ≠ "") (hs2 : s2 ≠ "") :
    QueueInv (MatchmakingQueue.createMatch st s1 s2) := by
  obtain ⟨h1, h2, h3⟩ := h
  refine ⟨?_, ?_, ?_⟩
  · unfold MatchmakingQueue.createMatch
    exact nodup_removeUser _ s2 true (nodup_removeUser _ s1 true h1)
  · intro u hu
    obtain ⟨hu0, hu1, hu2⟩ := createMatch_queue_mem st s1 s2 u hu
    rw [createMatch_matchesMap, mapGet_mapSet, if_neg hu2, mapGet_mapSet, if_neg hu1]
    exact h2 u hu0
  · intro pr hpr
    rw [createMatch_matchesMap] at hpr
    rcases mapSet_value_mem _ s2 s1 pr hpr with he | hm
    · rw [he]; exact hs1
    · rcases mapSet_value_mem _ s1 s2 pr hm with he | hm'
      · rw [he]; exact hs2
      · exact h3 pr hm'

theorem queueInv_clearMatch (st : QueueState) (s1 s2 : String) (h : QueueInv st) :
    QueueInv (MatchmakingQueue.clearMatch st s1 s2) := by
  obtain ⟨h1, h2, h3⟩ := h
  refine ⟨h1, ?_, ?_⟩
  · intro u hu
    show mapGet (mapDelete (mapDelete st.matchesMap s1) s2) u.socketId = none
    rw [mapGet_mapDelete]
    by_cases e2 : u.socketId = s2
    · rw [if_pos e2]
    · rw [if_neg e2, mapGet_mapDelete]
      by_cases e1 : u.socketId = s1
      · rw [if_pos e1]
      · rw [if_neg e1]; exact h2 u hu
  · intro pr hpr
    exact h3 pr (mapDelete_subset _ _ _ (mapDelete_subset _ _ _ hpr))

theorem queueGet_some_socketId {q : List QueuedUser} {sid : String} {u0 : QueuedUser}
    (h : queueGet q sid = some u0) : u0.socketId = sid := by
  unfold queueGet at h
  have := List.find?_some h
  simpa using this

theorem findMatch_state_cases (st : QueueState) (sid : String) (now : Int)
    (jitter : String → ℚ) (rnd : ℚ) :
    (MatchmakingQueue.findMatch st sid now jitter rnd).1 = st ∨
    ∃ user0, queueGet st.queue sid = some user0 ∧
      (MatchmakingQueue.findMatch st sid now jitter rnd).1 =
        bumpQueue st sid (bumpUser user0 now) := by
  unfold MatchmakingQueue.findMatch
  by_cases hm : (mapGet st.matchesMap sid).isSome = true
  · rw [if_pos hm]
    exact Or.inl rfl
  · rw [if_neg hm]
    cases hq : queueGet st.queue sid with
    | none => exact Or.inl rfl
    | some user0 => exact Or.inr ⟨user0, rfl, rfl⟩

theorem queueInv_findMatch (st : QueueState) (sid : String) (now : Int)
    (jitter : String → ℚ) (rnd : ℚ) (h : QueueInv st) :
    QueueInv (MatchmakingQueue.findMatch st sid now jitter rnd).1 := by
  rcases findMatch_state_cases st sid now jitter rnd with hc | ⟨user0, hq, hc⟩
  · rw [hc]; exact h
  · obtain ⟨h1, h2, h3⟩ := h
    have hid := queueGet_some_socketId hq
    have hproj : ∀ q : QueuedUser,
        (if q.socketId = sid then bumpUser user0 now else q).socketId = q.socketId := by
      intro q
      by_cases e : q.socketId = sid
      · rw [if_pos e]
        exact hid.trans e.symm
      · rw [if_neg e]
    rw [hc]
    refine ⟨?_, ?_, h3⟩
    · show ((st.queue.map (fun q => if q.socketId = sid then bumpUser user0 now
          else q)).map QueuedUser.socketId).Nodup
      rw [List.map_map]
      have := List.map_congr_left (l := st.queue)
        (f := QueuedUser.socketId ∘ (fun q => if q.socketId = sid then bumpUser user0 now else q))
        (g := QueuedUser.socketId) (fun q _ => hproj q)
      rw [this]
      exact h1
    · intro u hu
      have hu' : u ∈ st.queue.map
          (fun q => if q.socketId = sid then bumpUser user0 now else q) := hu
      obtain ⟨q, hqm, he⟩ := List.mem_map.mp hu'
      show mapGet st.matchesMap u.socketId = none
      have hs : u.socketId = q.socketId := by
        rw [← he]
        exact hproj q
      rw [hs]
      exact h2 q hqm

theorem queueInv_applyOp (st : QueueState) (op : QOp) (h : QueueInv st)
    (hop : opIdsOk op) : QueueInv (applyOp st op) := by
  cases op with
  | add sid uid prefs now => exact queueInv_addUser st sid uid prefs now h
  | remove sid b => exact queueInv_removeUser st sid b h
  | find sid now jitter rnd => exact queueInv_findMatch st sid now jitter rnd h
  | create s1 s2 => exact queueInv_createMatch st s1 s2 h hop.1 hop.2
  | clear s1 s2 => exact queueInv_clearMatch st s1 s2 h

theorem queueInv_init : QueueInv initState := by
  refine ⟨?_, ?_, ?_⟩
  · simp [initState]
  · intro u hu; simp [initState] at hu
  · intro pr hpr; simp [initState] at hpr

theorem queueInv_runOpsFrom (st : QueueState) (ops : List QOp) (h : QueueInv st)
    (hops : ∀ op ∈ ops, opIdsOk op) : QueueInv (runOpsFrom st ops) := by
  induction ops generalizing st with
  | nil => exact h
  | cons op rest ih =>
    exact ih (applyOp st op)
      (queueInv_applyOp st op h (hops op (List.mem_cons_self op rest)))
      (fun o ho => hops o (List.mem_cons_of_mem op ho))

/-- C1: after any sequence of queue operations from the empty state (session
ids being non-empty strings, as socket ids are and as the `find-match`
handler additionally enforces), every session id occurs at most once among
the queue's keys, and no session id is simultaneously a queue key and a key
of the matches map. -/
theorem queue_once_and_exclusive (ops : List QOp) (hops : ∀ op ∈ ops, opIdsOk op)
    (sid : String) :
    ((runOps ops).queue.map QueuedUser.socketId).count sid ≤ 1 ∧
    ¬ (sid ∈ (runOps ops).queue.map QueuedUser.socketId ∧
       MatchmakingQueue.isMatched (runOps ops) sid = true) := by
  have hInv : QueueInv (runOps ops) :=
    queueInv_runOpsFrom initState ops queueInv_init hops
  obtain ⟨h1, h2, h3⟩ := hInv
  constructor
  · exact List.nodup_iff_count_le_one.mp h1 sid
  · rintro ⟨hmem, hmat⟩
    obtain ⟨u, hu, he⟩ := List.mem_map.mp hmem
    have hn := h2 u hu
    rw [he] at hn
    unfold MatchmakingQueue.isMatched at hmat
    rw [hn] at hmat
    exact absurd hmat (by simp)

/-- Witness for C1 on a concrete trace that enqueues two sessions, pairs
them and re-enqueues one. -/
theorem queue_once_and_exclusive_witness :
    (∀ op ∈ [QOp.add "s1" "u1" none 0, QOp.add "s2" "u2" none 0,
             QOp.create "s1" "s2", QOp.add "s1" "u1" none 9], opIdsOk op) ∧
    (((runOps [QOp.add "s1" "u1" none 0, QOp.add "s2" "u2" none 0,
             QOp.create "s1" "s2", QOp.add "s1" "u1" none 9]).queue.map
        QueuedUser.socketId).count "s1" ≤ 1 ∧
     ¬ ("s1" ∈ (runOps [QOp.add "s1" "u1" none 0, QOp.add "s2" "u2" none 0,
             QOp.create "s1" "s2", QOp.add "s1" "u1" none 9]).queue.map
          QueuedUser.socketId ∧
        MatchmakingQueue.isMatched
          (runOps [QOp.add "s1" "u1" none 0, QOp.add "s2" "u2" none 0,
             QOp.create "s1" "s2", QOp.add "s1" "u1" none 9]) "s1" = true)) :=
  ⟨by decide,
   queue_once_and_exclusive
     [QOp.add "s1" "u1" none 0, QOp.add "s2" "u2" none 0,
      QOp.create "s1" "s2", QOp.add "s1" "u1" none 9] (by decide) "s1"⟩

theorem sym_delete_pair {m : List (String × String)} (hs : SymmetricMatches m)
    {x y : String} (hxy : mapGet m x = some y) :
    SymmetricMatches (mapDelete (mapDelete m x) y) := by
  intro a b hab
  rw [mapGet_mapDelete] at hab
  by_cases hay : a = y
  · rw [if_pos hay] at hab; exact absurd hab (by simp)
  · rw [if_neg hay, mapGet_mapDelete] at hab
    by_cases hax : a = x
    · rw [if_pos hax] at hab; exact absurd hab (by simp)
    · rw [if_neg hax] at hab
      have hby : b ≠ y := by
        intro e
        rw [e] at hab
        have h1 := hs a y hab
        have h2 := hs x y hxy
        rw [h1] at h2
        exact hax (Option.some.inj h2)
      have hbx : b ≠ x := by
        intro e
        rw [e] at hab
        have h1 := hs a x hab
        rw [hxy] at h1
        exact hay (Option.some.inj h1).symm
      rw [mapGet_mapDelete, if_neg hby, mapGet_mapDelete, if_neg hbx]
      exact hs a b hab

theorem sym_insert_pair {m : List (String × String)} (hs : SymmetricMatches m)
    {x y : String} (hx : mapGet m x = none) (hy : mapGet m y = none) (hxy : x ≠ y) :
    SymmetricMatches (mapSet (mapSet m x y) y x) := by
  intro a b hab
  rw [mapGet_mapSet] at hab
  by_cases hay : a = y
  · rw [if_pos hay] at hab
    have hb : b = x := (Option.some.inj hab).symm
    rw [hb, mapGet_mapSet, if_neg hxy, mapGet_mapSet, if_pos rfl, hay]
  · rw [if_neg hay, mapGet_mapSet] at hab
    by_cases hax : a = x
    · rw [if_pos hax] at hab
      have hb : b = y := (Option.some.inj hab).symm
      rw [hb, mapGet_mapSet, if_pos rfl, hax]
    · rw [if_neg hax] at hab
      have hbx : b ≠ x := by
        intro e
        rw [e] at hab
        have h1 := hs a x hab
        rw [hx] at h1
        exact Option.noConfusion h1
      have hby : b ≠ y := by
        intro e
        rw [e] at hab
        have h1 := hs a y hab
        rw [hy] at h1
        exact Option.noConfusion h1
      rw [mapGet_mapSet, if_neg hby, mapGet_mapSet, if_neg hbx]
      exact hs a b hab

theorem sym_removeUser (st : QueueState) (sid : String) (b : Bool)
    (hs : SymmetricMatches st.matchesMap) :
    SymmetricMatches (MatchmakingQueue.removeUser st sid b).matchesMap := by
  rcases removeUser_matchesMap_cases st sid b with hc | ⟨v, hv, hc⟩ <;> rw [hc]
  · exact hs
  · exact sym_delete_pair hs hv

theorem sym_applyOp (st : QueueState) (op : QOp) (hs : SymmetricMatches st.matchesMap)
    (hg : opGuard st op) : SymmetricMatches (applyOp st op).matchesMap := by
  cases op with
  | add sid uid prefs now =>
    show SymmetricMatches (MatchmakingQueue.addUser st sid uid prefs now).matchesMap
    rw [addUser_matchesMap]
    exact sym_removeUser st sid false hs
  | remove sid b => exact sym_removeUser st sid b hs
  | find sid now jitter rnd =>
    show SymmetricMatches (MatchmakingQueue.findMatch st sid now jitter rnd).1.matchesMap
    rcases findMatch_state_cases st sid now jitter rnd with hc | ⟨u0, _, hc⟩ <;> rw [hc]
    · exact hs
    · exact hs
  | create s1 s2 =>
    obtain ⟨hne, h1, h2⟩ := hg
    show SymmetricMatches (MatchmakingQueue.createMatch st s1 s2).matchesMap
    rw [createMatch_matchesMap]
    unfold MatchmakingQueue.getMatch at h1 h2
    exact sym_insert_pair hs h1 h2 hne
  | clear s1 s2 =>
    have hg' : mapGet st.matchesMap s1 = some s2 := hg
    exact sym_delete_pair hs hg'

theorem sym_runOpsFrom (st : QueueState) (ops : List QOp)
    (hs : SymmetricMatches st.matchesMap) (hg : guardedFrom st ops) :
    SymmetricMatches (runOpsFrom st ops).matchesMap := by
  induction ops generalizing st with
  | nil => exact hs
  | cons op rest ih =>
    exact ih (applyOp st op) (sym_applyOp st op hs hg.1) hg.2

/-- C2 counterexample: from the empty state, `createMatch(a, b)` followed by
`clearMatch(a, c)` — `clearMatch` invoked with an argument that is not `a`'s
partner — leaves `getMatch(b) = a` while `getMatch(a)` is gone, so the
pairing relation is not symmetric under arbitrary-argument `clearMatch` as
the claim states. -/
theorem matches_symmetry_cex :
    MatchmakingQueue.getMatch
      (runOps [QOp.create "a" "b", QOp.clear "a" "c"]) "b" = some "a" ∧
    MatchmakingQueue.getMatch
      (runOps [QOp.create "a" "b", QOp.clear "a" "c"]) "a" = none := by
  decide

/-- C2 (amended): for every operation sequence from the empty state in which
each `createMatch` is invoked on two distinct currently-unmatched sessions
and each `clearMatch(s1, s2)` is invoked with `s2 = getMatch(s1)` — exactly
the call-site pattern of the socket handlers — the pairing relation is
symmetric after every operation; `addUser`, `removeUser` and `findMatch`
need no guard. -/
theorem matches_symmetric_guarded (ops : List QOp)
    (hg : guardedFrom initState ops) :
    SymmetricMatches (runOps ops).matchesMap :=
  sym_runOpsFrom initState ops
    (fun a b hab => by simp [initState, mapGet] at hab) hg

/-- Witness for the amended C2 on a concrete guarded trace. -/
theorem matches_symmetric_guarded_witness :
    guardedFrom initState
      [QOp.add "a" "u1" none 0, QOp.add "b" "u2" none 0,
       QOp.create "a" "b", QOp.clear "a" "b", QOp.create "b" "a"] ∧
    SymmetricMatches (runOps
      [QOp.add "a" "u1" none 0, QOp.add "b" "u2" none 0,
       QOp.create "a" "b", QOp.clear "a" "b", QOp.create "b" "a"]).matchesMap :=
  ⟨by decide,
   matches_symmetric_guarded
     [QOp.add "a" "u1" none 0, QOp.add "b" "u2" none 0,
      QOp.create "a" "b", QOp.clear "a" "b", QOp.create "b" "a"] (by decide)⟩

/-! Machinery for C9: the push-accumulator loops of `findMatch` against the
declarative phase collectors, and the weighted-selection loop against the
cumulative-sum characterisation. -/

theorem foldl_push_filterMap {α : Type} (f : α → Option MatchCandidate)
    (l : List α) (acc : List MatchCandidate) :
    l.foldl (fun a x => MatchmakingQueue.pushCand a (f x)) acc =
      acc ++ l.filterMap f := by
  induction l generalizing acc with
  | nil => simp
  | cons x xs ih =>
    rw [List.foldl_cons, List.filterMap_cons]
    cases hf : f x with
    | none =>
      rw [show MatchmakingQueue.pushCand acc none = acc from rfl, ih]
    | some c =>
      rw [show MatchmakingQueue.pushCand acc (some c) = acc ++ [c] from rfl, ih,
        List.append_assoc]
      rfl

theorem phase2_fold (st : QueueState) (user : QueuedUser) (now : Int)
    (jitter : String → ℚ) (userTier : String) (bs : List (String × List String))
    (acc : List MatchCandidate) :
    bs.foldl (fun acc pr =>
      if pr.1 = userTier then acc
      else pr.2.foldl (fun acc2 cid =>
        MatchmakingQueue.pushCand acc2
          (MatchmakingQueue.candOf st user now jitter false false cid)) acc) acc
    = acc ++ (bs.filter (fun pr => pr.1 ≠ userTier)).flatMap
        (fun pr => pr.2.filterMap (MatchmakingQueue.candOf st user now jitter false false)) := by
  induction bs generalizing acc with
  | nil => simp
  | cons pr bs ih =>
    rw [List.foldl_cons, List.filter_cons]
    by_cases hp : pr.1 = userTier
    · rw [if_pos hp]
      have hd : (decide (pr.1 ≠ userTier)) = false := by simp [hp]
      rw [hd]
      simp only [Bool.false_eq_true, if_false]
      exact ih acc
    · rw [if_neg hp]
      have hd : (decide (pr.1 ≠ userTier)) = true := by simp [hp]
      rw [hd]
      simp only [if_true]
      rw [foldl_push_filterMap, ih, List.flatMap_cons, List.append_assoc]

theorem cumScores_cons (c : MatchCandidate) (cs : List MatchCandidate) (a : ℚ) :
    cumScores (c :: cs) a = (a + c.score) :: cumScores cs (a + c.score) := rfl

theorem weightedLoop_eq_find (l : List MatchCandidate) :
    ∀ r a : ℚ, weightedLoop (r - a) l =
      ((l.zip (cumScores l a)).find? (fun pr => decide (r ≤ pr.2))).map
        (fun pr => pr.1.user) := by
  induction l with
  | nil => intro r a; rfl
  | cons c cs ih =>
    intro r a
    rw [cumScores_cons, List.zip_cons_cons, List.find?_cons]
    by_cases h : r ≤ a + c.score
    · have h1 : (r - a) - c.score ≤ 0 := by linarith
      rw [show weightedLoop (r - a) (c :: cs) =
        (if (r - a) - c.score ≤ 0 then some c.user
         else weightedLoop ((r - a) - c.score) cs) from rfl]
      rw [if_pos h1]
      have hd : (decide (r ≤ a + c.score)) = true := by simp [h]
      rw [hd]
      rfl
    · have h1 : ¬ ((r - a) - c.score ≤ 0) := by
        intro hc
        exact h (by linarith)
      rw [show weightedLoop (r - a) (c :: cs) =
        (if (r - a) - c.score ≤ 0 then some c.user
         else weightedLoop ((r - a) - c.score) cs) from rfl]
      rw [if_neg h1]
      have hd : (decide (r ≤ a + c.score)) = false := by simp [h]
      rw [hd]
      have h3 : (r - a) - c.score = r - (a + c.score) := by ring
      rw [h3]
      exact ih r (a + c.score)

theorem insertDesc_ne_nil (a : MatchCandidate) (l : List MatchCandidate) :
    insertDesc a l ≠ [] := by
  cases l with
  | nil => simp [insertDesc]
  | cons b bs =>
    unfold insertDesc
    split <;> simp

theorem sortByDesc_eq_nil_iff (l : List MatchCandidate) :
    sortByDesc l = [] ↔ l = [] := by
  cases l with
  | nil => simp [sortByDesc]
  | cons a as =>
    simp only [sortByDesc]
    constructor
    · intro h; exact absurd h (insertDesc_ne_nil a _)
    · intro h; exact absurd h (by simp)

theorem selection_eq (rnd : ℚ) (pool : List MatchCandidate) :
    (if pool.isEmpty = true then none
     else
       match sortByDesc pool with
       | [] => none
       | t :: ts =>
         match weightedLoop (rnd * (((t :: ts).take 5).map MatchCandidate.score).sum)
             ((t :: ts).take 5) with
         | some u => some u
         | none => some t.user) =
    weightedSelect rnd (sortByDesc pool) := by
  by_cases hp : pool = []
  · subst hp
    rfl
  · rw [if_neg (by simp [hp] : ¬ (pool.isEmpty = true))]
    cases hs : sortByDesc pool with
    | nil => exact absurd ((sortByDesc_eq_nil_iff pool).mp hs) hp
    | cons t ts =>
      show (match weightedLoop
          (rnd * (((t :: ts).take 5).map MatchCandidate.score).sum)
          ((t :: ts).take 5) with
        | some u => some u
        | none => some t.user) = weightedSelect rnd (t :: ts)
      have hwl := weightedLoop_eq_find ((t :: ts).take 5)
        (rnd * (((t :: ts).take 5).map MatchCandidate.score).sum) 0
      rw [sub_zero] at hwl
      rw [hwl]
      simp only [weightedSelect]
      cases hf : (((t :: ts).take 5).zip (cumScores ((t :: ts).take 5) 0)).find?
          (fun pr =>
            decide (rnd * (((t :: ts).take 5).map MatchCandidate.score).sum ≤ pr.2)) with
      | none => rfl
      | some pr => rfl

theorem findMatchSearch_eq (st : QueueState) (user : QueuedUser) (now : Int)
    (jitter : String → ℚ) (rnd : ℚ) :
    MatchmakingQueue.findMatchSearch st user now jitter rnd =
      weightedSelect rnd (sortByDesc (candidatePool st user now jitter)) := by
  have hc1 : (match bucketGet st.buckets (jsTier user.prefTier) with
      | none => ([] : List MatchCandidate)
      | some ids =>
        ids.foldl (fun acc cid =>
          MatchmakingQueue.pushCand acc
            (MatchmakingQueue.candOf st user now jitter true true cid)) [])
      = phaseOneCandidates st user now jitter := by
    unfold phaseOneCandidates
    cases bucketGet st.buckets (jsTier user.prefTier) with
    | none => rfl
    | some ids =>
      show (ids.foldl (fun acc cid =>
          MatchmakingQueue.pushCand acc
            (MatchmakingQueue.candOf st user now jitter true true cid)) [])
        = ids.filterMap (MatchmakingQueue.candOf st user now jitter true true)
      rw [foldl_push_filterMap]
      rfl
  simp only [MatchmakingQueue.findMatchSearch]
  rw [hc1]
  simp only [candidatePool]
  set c1 := phaseOneCandidates st user now jitter with hc1def
  have hb : (c1.isEmpty || decide (user.waitTime > 10000)) = true ↔
      (c1 = [] ∨ user.waitTime > 10000) := by
    simp [List.isEmpty_iff]
  have hc2 : (if (c1.isEmpty || decide (user.waitTime > 10000)) = true then
      st.buckets.foldl (fun acc pr =>
        if pr.1 = jsTier user.prefTier then acc
        else pr.2.foldl (fun acc2 cid =>
          MatchmakingQueue.pushCand acc2
            (MatchmakingQueue.candOf st user now jitter false false cid)) acc) c1
    else c1) =
      (if c1 = [] ∨ user.waitTime > 10000 then
        c1 ++ crossTierCandidates st user now jitter
      else c1) := by
    by_cases h : c1 = [] ∨ user.waitTime > 10000
    · rw [if_pos h, if_pos (hb.mpr h), phase2_fold]
      rfl
    · rw [if_neg h, if_neg (fun hx => h (hb.mp hx))]
  rw [hc2]
  set c12 := if c1 = [] ∨ user.waitTime > 10000 then
      c1 ++ crossTierCandidates st user now jitter
    else c1 with hc12def
  have hc3 : (if c12.isEmpty = true then
      st.queue.foldl (fun acc cand =>
        MatchmakingQueue.pushCand acc
          (MatchmakingQueue.relaxedCandOf st user now jitter
            (jsTier user.prefTier) cand)) c12
    else c12) =
      (if c12 = [] then relaxedCandidates st user now jitter else c12) := by
    by_cases h : c12 = []
    · rw [if_pos (by simp [h] : c12.isEmpty = true), if_pos h, h,
        foldl_push_filterMap]
      rfl
    · rw [if_neg (by simp [h] : ¬ (c12.isEmpty = true)), if_neg h]
  rw [hc3]
  exact selection_eq rnd (if c12 = [] then relaxedCandidates st user now jitter else c12)

theorem weightedSelect_cons_ne_none (rnd : ℚ) (t : MatchCandidate)
    (ts : List MatchCandidate) : weightedSelect rnd (t :: ts) ≠ none := by
  simp only [weightedSelect]
  cases hf : (((t :: ts).take 5).zip (cumScores ((t :: ts).take 5) 0)).find?
      (fun pr =>
        decide (rnd * (((t :: ts).take 5).map MatchCandidate.score).sum ≤ pr.2)) with
  | none => simp
  | some pr => simp

theorem weightedSelect_mem (rnd : ℚ) (l : List MatchCandidate) (u : QueuedUser)
    (h : weightedSelect rnd l = some u) : ∃ c ∈ l.take 5, u = c.user := by
  cases l with
  | nil => exact absurd h (by simp [weightedSelect])
  | cons t ts =>
    simp only [weightedSelect] at h
    cases hf : (((t :: ts).take 5).zip (cumScores ((t :: ts).take 5) 0)).find?
        (fun pr =>
          decide (rnd * (((t :: ts).take 5).map MatchCandidate.score).sum ≤ pr.2)) with
    | none =>
      rw [hf] at h
      refine ⟨t, ?_, (Option.some.inj h).symm⟩
      rw [show (t :: ts).take 5 = t :: ts.take 4 from rfl]
      exact List.mem_cons_self t _
    | some pr =>
      rw [hf] at h
      have hmem := List.mem_of_find?_eq_some hf
      obtain ⟨pr1, pr2⟩ := pr
      exact ⟨pr1, (List.of_mem_zip hmem).1, (Option.some.inj h).symm⟩

/-- C9: for every queued, unmatched caller, `findMatch` returns exactly the
spec's phased weighted selection: the candidate pool is phase 1 (same
tier), extended by the cross-tier phase exactly when phase 1 produced no
candidates or the caller's wait time exceeds 10 000 ms, and replaced by the
relaxed phase 3 only when still empty (see `candidatePool`); the result is
`none` iff no phase produced a candidate; and when candidates exist, the
returned partner is the weighted-random choice (weight = score, one scaled
uniform draw over cumulative sums, fallback to the best) among the top at
most 5 candidates sorted by descending score, hence always one of those
top 5. -/
theorem findMatch_phased_selection (st : QueueState) (sid : String) (now : Int)
    (jitter : String → ℚ) (rnd : ℚ) (user0 : QueuedUser)
    (pool : List MatchCandidate)
    (hm : mapGet st.matchesMap sid = none)
    (hq : queueGet st.queue sid = some user0)
    (hpool : pool = candidatePool (bumpQueue st sid (bumpUser user0 now))
      (bumpUser user0 now) now jitter) :
    ((MatchmakingQueue.findMatch st sid now jitter rnd).2 = none ↔ pool = []) ∧
    (MatchmakingQueue.findMatch st sid now jitter rnd).2 =
      weightedSelect rnd (sortByDesc pool) ∧
    (pool ≠ [] → ∃ c ∈ (sortByDesc pool).take 5,
      (MatchmakingQueue.findMatch st sid now jitter rnd).2 = some c.user) := by
  have hres : (MatchmakingQueue.findMatch st sid now jitter rnd).2 =
      MatchmakingQueue.findMatchSearch (bumpQueue st sid (bumpUser user0 now))
        (bumpUser user0 now) now jitter rnd := by
    unfold MatchmakingQueue.findMatch
    rw [hm]
    simp only [Option.isSome_none, Bool.false_eq_true, if_false]
    rw [hq]
    rfl
  rw [hres, findMatchSearch_eq, ← hpool]
  refine ⟨?_, rfl, ?_⟩
  · constructor
    · intro h
      cases hs : sortByDesc pool with
      | nil => exact (sortByDesc_eq_nil_iff pool).mp hs
      | cons t ts =>
        rw [hs] at h
        exact absurd h (weightedSelect_cons_ne_none rnd t ts)
    · intro h
      rw [h]
      rfl
  · intro hne
    cases hs : sortByDesc pool with
    | nil => exact absurd ((sortByDesc_eq_nil_iff pool).mp hs) hne
    | cons t ts =>
      cases hv : weightedSelect rnd (t :: ts) with
      | none => exact absurd hv (weightedSelect_cons_ne_none rnd t ts)
      | some u =>
        obtain ⟨c, hc, he⟩ := weightedSelect_mem rnd (t :: ts) u hv
        refine ⟨c, hc, ?_⟩
        rw [he]

/-- Witness for C9 on a two-user queue: the hypotheses hold concretely and
the theorem applies with the pool given by `candidatePool` itself. -/
theorem findMatch_phased_selection_witness :
    mapGet (runOps [QOp.add "s1" "u1" none 0, QOp.add "s2" "u2" none 0]).matchesMap
        "s1" = none ∧
    queueGet (runOps [QOp.add "s1" "u1" none 0, QOp.add "s2" "u2" none 0]).queue
        "s1" = some
      { socketId := "s1", userId := "u1", prefGender := none, prefRegion := none,
        prefTier := "free", timestamp := 0, waitTime := 0, blockedUsers := [],
        searchAttempts := 0 } ∧
    (((MatchmakingQueue.findMatch
        (runOps [QOp.add "s1" "u1" none 0, QOp.add "s2" "u2" none 0]) "s1" 5
        (fun _ => 0) (1/2)).2 = none ↔
      candidatePool
        (bumpQueue (runOps [QOp.add "s1" "u1" none 0, QOp.add "s2" "u2" none 0]) "s1"
          (bumpUser
            { socketId := "s1", userId := "u1", prefGender := none, prefRegion := none,
              prefTier := "free", timestamp := 0, waitTime := 0, blockedUsers := [],
              searchAttempts := 0 } 5))
        (bumpUser
          { socketId := "s1", userId := "u1", prefGender := none, prefRegion := none,
            prefTier := "free", timestamp := 0, waitTime := 0, blockedUsers := [],
            searchAttempts := 0 } 5) 5 (fun _ => 0) = []) ∧
     (MatchmakingQueue.findMatch
        (runOps [QOp.add "s1" "u1" none 0, QOp.add "s2" "u2" none 0]) "s1" 5
        (fun _ => 0) (1/2)).2 =
       weightedSelect (1/2) (sortByDesc (candidatePool
        (bumpQueue (runOps [QOp.add "s1" "u1" none 0, QOp.add "s2" "u2" none 0]) "s1"
          (bumpUser
            { socketId := "s1", userId := "u1", prefGender := none, prefRegion := none,
              prefTier := "free", timestamp := 0, waitTime := 0, blockedUsers := [],
              searchAttempts := 0 } 5))
        (bumpUser
          { socketId := "s1", userId := "u1", prefGender := none, prefRegion := none,
            prefTier := "free", timestamp := 0, waitTime := 0, blockedUsers := [],
            searchAttempts := 0 } 5) 5 (fun _ => 0))) ∧
     (candidatePool
        (bumpQueue (runOps [QOp.add "s1" "u1" none 0, QOp.add "s2" "u2" none 0]) "s1"
          (bumpUser
            { socketId := "s1", userId := "u1", prefGender := none, prefRegion := none,
              prefTier := "free", timestamp := 0, waitTime := 0, blockedUsers := [],
              searchAttempts := 0 } 5))
        (bumpUser
          { socketId := "s1", userId := "u1", prefGender := none, prefRegion := none,
            prefTier := "free", timestamp := 0, waitTime := 0, blockedUsers := [],
            searchAttempts := 0 } 5) 5 (fun _ => 0) ≠ [] →
      ∃ c ∈ (sortByDesc (candidatePool
        (bumpQueue (runOps [QOp.add "s1" "u1" none 0, QOp.add "s2" "u2" none 0]) "s1"
          (bumpUser
            { socketId := "s1", userId := "u1", prefGender := none, prefRegion := none,
              prefTier := "free", timestamp := 0, waitTime := 0, blockedUsers := [],
              searchAttempts := 0 } 5))
        (bumpUser
          { socketId := "s1", userId := "u1", prefGender := none, prefRegion := none,
            prefTier := "free", timestamp := 0, waitTime := 0, blockedUsers := [],
            searchAttempts := 0 } 5) 5 (fun _ => 0))).take 5,
        (MatchmakingQueue.findMatch
          (runOps [QOp.add "s1" "u1" none 0, QOp.add "s2" "u2" none 0]) "s1" 5
          (fun _ => 0) (1/2)).2 = some c.user)) :=
  ⟨by decide, by decide,
   findMatch_phased_selection
     (runOps [QOp.add "s1" "u1" none 0, QOp.add "s2" "u2" none 0]) "s1" 5
     (fun _ => 0) (1/2)
     { socketId := "s1", userId := "u1", prefGender := none, prefRegion := none,
       prefTier := "free", timestamp := 0, waitTime := 0, blockedUsers := [],
       searchAttempts := 0 }
     (candidatePool
       (bumpQueue (runOps [QOp.add "s1" "u1" none 0, QOp.add "s2" "u2" none 0]) "s1"
         (bumpUser
           { socketId := "s1", userId := "u1", prefGender := none, prefRegion := none,
             prefTier := "free", timestamp := 0, waitTime := 0, blockedUsers := [],
             searchAttempts := 0 } 5))
       (bumpUser
         { socketId := "s1", userId := "u1", prefGender := none, prefRegion := none,
           prefTier := "free", timestamp := 0, waitTime := 0, blockedUsers := [],
           searchAttempts := 0 } 5) 5 (fun _ => 0))
     (by decide) (by decide) rfl⟩

/-- Witness is not needed for C8 (no propositional hypotheses), but a
concrete instantiation keeps the characterisation honest. -/
theorem areCompatible_iff_example :
    MatchmakingQueue.areCompatible []
      { socketId := "s1", userId := "u1", prefGender := none,
        prefRegion := some "eu", prefTier := "free", timestamp := 0, waitTime := 0,
        blockedUsers := [], searchAttempts := 0 }
      { socketId := "s2", userId := "u2", prefGender := none,
        prefRegion := some "eu", prefTier := "free", timestamp := 0, waitTime := 0,
        blockedUsers := [], searchAttempts := 0 } = true := by
  decide

/-- C5 counterexample: with `a` paired to `b`, `a` skips with
`autoRequeue:true`; after the handler and its scheduled requeue callback
complete, `a` is back in the queue with a new search driver, but `b` is not
in the queue and no driver was started for it — the core does not
auto-requeue the skipped peer, contrary to the claim that both end up
re-enqueued. -/
theorem skip_peer_not_requeued_cex :
    MatchmakingQueue.getMatch (runOps [QOp.create "a" "b"]) "a" = some "b" ∧
    queueGet
      (skipWithRequeue (runOps [QOp.create "a" "b"]) "a" (some "u1") none (some true)
        (some []) 7).1.queue "b" = none ∧
    (skipWithRequeue (runOps [QOp.create "a" "b"]) "a" (some "u1") none (some true)
        (some []) 7).2.2 = ["a"] := by
  decide

/-- C5 (amended): when a paired session `sid` skips with `autoRequeue:true`
and a user id, the core emits `match-ended` with `autoRequeue:true` to the
skipped peer `p` — delegating `p`'s requeue to `p`'s own client — then
re-enqueues only `sid` and starts a new search driver only for `sid`; `p`
is not re-enqueued server-side. -/
theorem skip_requeues_only_skipper (st : QueueState) (sid p uid : String)
    (dPrefs : Option AddPrefs) (blockedFetch : Option (List String)) (now : Int)
    (h : MatchmakingQueue.getMatch st sid = some p) (hps : p ≠ sid)
    (hpq : queueGet st.queue p = none) (hsid : sid ≠ "") (huid : uid ≠ "") :
    (skipWithRequeue st sid (some uid) dPrefs (some true) blockedFetch now).2.1 =
      [(p, SEvent.matchEnded "skipped" true (some sid) (some true)),
       (sid, SEvent.matchEnded "skipped" true (some sid) (some true)),
       (sid, SEvent.skipSuccess true)] ∧
    (queueGet
      (skipWithRequeue st sid (some uid) dPrefs (some true) blockedFetch now).1.queue
      sid).isSome = true ∧
    (skipWithRequeue st sid (some uid) dPrefs (some true) blockedFetch now).2.2 =
      [sid] ∧
    queueGet
      (skipWithRequeue st sid (some uid) dPrefs (some true) blockedFetch now).1.queue
      p = none := by
  have hc1 := getMatch_clearMatch_fst st sid p
  have hc2 := getMatch_clearMatch_snd st sid p
  have hi1 : MatchmakingQueue.isMatched (MatchmakingQueue.clearMatch st sid p) sid
      = false := by
    unfold MatchmakingQueue.isMatched
    unfold MatchmakingQueue.getMatch at hc1
    rw [hc1]; rfl
  have hi2 : MatchmakingQueue.isMatched (MatchmakingQueue.clearMatch st sid p) p
      = false := by
    unfold MatchmakingQueue.isMatched
    unfold MatchmakingQueue.getMatch at hc2
    rw [hc2]; rfl
  have hsh : skipHandler st sid (some uid) dPrefs (some true) =
      { state := MatchmakingQueue.clearMatch st sid p
        emissions := [(p, SEvent.matchEnded "skipped" true (some sid) (some true)),
                      (sid, SEvent.matchEnded "skipped" true (some sid) (some true))]
        requeueTask := some (sid, uid, dPrefs) } := by
    unfold skipHandler
    rw [h]
    simp [hi1, hi2, truthyStr, huid]
  have hstep : skipRequeueStep (MatchmakingQueue.clearMatch st sid p) sid uid dPrefs
      blockedFetch now =
      (MatchmakingQueue.addUser (MatchmakingQueue.clearMatch st sid p) sid uid
        (match blockedFetch with
         | some blockedIds =>
           some { gender := dPrefs.bind (·.gender), region := dPrefs.bind (·.region),
                  tier := dPrefs.bind (·.tier), blockedUserIds := some blockedIds }
         | none => dPrefs) now,
       [(sid, SEvent.skipSuccess true)], [sid]) := by
    unfold skipRequeueStep
    have hne : ¬ (sid = "" ∨ uid = "") := by
      rintro (h1 | h2)
      · exact hsid h1
      · exact huid h2
    cases blockedFetch <;> simp [hc1, hne]
  unfold skipWithRequeue
  rw [hsh]
  simp only []
  rw [hstep]
  refine ⟨rfl, ?_, rfl, ?_⟩
  · exact queueGet_addUser_isSome _ sid uid _ now
  · exact queueGet_addUser_other _ sid uid _ now hps
      (by rw [clearMatch_queue]; exact hpq)

/-- Witness for the amended C5 with a concrete pairing and an empty block
fetch. -/
theorem skip_requeues_only_skipper_witness :
    MatchmakingQueue.getMatch (runOps [QOp.create "a" "b"]) "a" = some "b" ∧
    ((skipWithRequeue (runOps [QOp.create "a" "b"]) "a" (some "u1") none (some true)
        (some ["z"]) 7).2.1 =
      [("b", SEvent.matchEnded "skipped" true (some "a") (some true)),
       ("a", SEvent.matchEnded "skipped" true (some "a") (some true)),
       ("a", SEvent.skipSuccess true)] ∧
     (queueGet (skipWithRequeue (runOps [QOp.create "a" "b"]) "a" (some "u1") none
        (some true) (some ["z"]) 7).1.queue "a").isSome = true ∧
     (skipWithRequeue (runOps [QOp.create "a" "b"]) "a" (some "u1") none (some true)
        (some ["z"]) 7).2.2 = ["a"] ∧
     queueGet (skipWithRequeue (runOps [QOp.create "a" "b"]) "a" (some "u1") none
        (some true) (some ["z"]) 7).1.queue "b" = none) :=
  ⟨by decide,
   skip_requeues_only_skipper (runOps [QOp.create "a" "b"]) "a" "b" "u1" none
     (some ["z"]) 7 (by decide) (by decide) (by decide) (by decide) (by decide)⟩

/-- Witness for the amended C7 at concrete sessions. -/
theorem matchFound_payload_fields_witness :
    ({ socketId := "s2", userId := "u2", prefGender := none, prefRegion := none,
       prefTier := "free", timestamp := 0, waitTime := 5, blockedUsers := [],
       searchAttempts := 1 } : QueuedUser).socketId ≠ "s1" ∧
    matchFoundPayloadsTo
      (checkForMatchFound initState "s1"
        { socketId := "s2", userId := "u2", prefGender := none, prefRegion := none,
          prefTier := "free", timestamp := 0, waitTime := 5, blockedUsers := [],
          searchAttempts := 1 } 0).2 "s1" = [("s2", "u2", 5)] :=
  ⟨by decide,
   (matchFound_payload_fields initState "s1"
     { socketId := "s2", userId := "u2", prefGender := none, prefRegion := none,
       prefTier := "free", timestamp := 0, waitTime := 5, blockedUsers := [],
       searchAttempts := 1 } 0 (by decide)).1⟩

end Vele
